import Mathlib

/-!
# Verification of the usage-metering / credit core of `unhinged-app/public/app.js`

Shallow embedding of the usage-accounting and generation-gating subsystem.
Remote (Supabase) calls are modelled on their success path: a query or write
that the source awaits is assumed to reach the store (transient I/O failure
paths are logged-and-swallowed in the source and are out of scope here).
Wall-clock time is modelled in UTC with no daylight-saving shifts: an
`Instant` records the calendar year and the number of milliseconds elapsed
since `new Date(year, 0, 0)` (midnight, Dec 31 of the previous year), which
is exactly the quantity the source's day-of-year arithmetic consumes.
-/

namespace Valtori

/-! ## Constants (app.js lines 17-21) -/

def FREE_LIMIT_ANONYMOUS : Nat := 5
def FREE_LIMIT_AUTHENTICATED : Nat := 10
def COOLDOWN_DAYS : Nat := 2
def CREDIT_PACK_SIZE : Nat := 25

/-! ## Quota Clock (app.js `getCooldownPeriodStart`, lines 566-572)

The source computes `dayOfYear = floor((now - new Date(year,0,0)) / 86400000)`,
`periodNumber = floor(dayOfYear / COOLDOWN_DAYS)`, then renders
`new Date(year, 0, periodNumber * COOLDOWN_DAYS + 1)` as an ISO date string
(`toISOString().split('T')[0]`).  `new Date(year, 0, d)` normalizes a day
number past the end of the year into the following year(s), Gregorian rules;
`civilAux` reproduces that normalization (its fuel argument strictly bounds
the number of year-overflow steps, and is never exhausted for day `d ≥ 1`). -/

def msPerDay : Nat := 86400000

def isLeapYear (y : Nat) : Bool :=
  (y % 4 == 0 && y % 100 != 0) || (y % 400 == 0)

def daysInYear (y : Nat) : Nat := if isLeapYear y then 366 else 365

def monthLengths (y : Nat) : List Nat :=
  [31, if isLeapYear y then 29 else 28, 31, 30, 31, 30, 31, 31, 30, 31, 30, 31]

/-- Walk the month-length table: turn a (1-based) day-of-year into a
(month, day-of-month) pair, months numbered from `m`. -/
def monthDayAux : List Nat → Nat → Nat → Nat × Nat
  | [], m, d => (m, d)
  | len :: rest, m, d => if d ≤ len then (m, d) else monthDayAux rest (m + 1) (d - len)

def monthDayOfYearDay (y d : Nat) : Nat × Nat :=
  monthDayAux (monthLengths y) 1 d

/-- Gregorian normalization of `new Date(y, 0, d)` for `d ≥ 1`: spill whole
years while `d` exceeds the year length, then split into month/day.  The
first argument is fuel (each spill removes ≥ 365 days, so fuel `d` always
suffices). -/
def civilAux : Nat → Nat → Nat → Nat × Nat × Nat
  | 0, y, _ => (y, 1, 1)
  | fuel + 1, y, d =>
      if daysInYear y < d then civilAux fuel (y + 1) (d - daysInYear y)
      else (y, (monthDayOfYearDay y d).1, (monthDayOfYearDay y d).2)

def civilFromYearDay (y d : Nat) : Nat × Nat × Nat := civilAux d y d

/-- One digit, `0`-`9`. -/
def digitChar : Nat → Char
  | 0 => '0' | 1 => '1' | 2 => '2' | 3 => '3' | 4 => '4'
  | 5 => '5' | 6 => '6' | 7 => '7' | 8 => '8' | _ => '9'

def pad4 (n : Nat) : List Char :=
  [digitChar (n / 1000 % 10), digitChar (n / 100 % 10),
   digitChar (n / 10 % 10), digitChar (n % 10)]

def pad2 (n : Nat) : List Char :=
  [digitChar (n / 10 % 10), digitChar (n % 10)]

/-- Rendering of `Date.prototype.toISOString().split('T')[0]` for a civil date (four-digit
years, i.e. years `0`-`9999` — the only range where `toISOString` uses the
plain `YYYY-MM-DD` form). -/
def isoOfTriple : Nat × Nat × Nat → String
  | (y, m, d) => ⟨pad4 y ++ '-' :: pad2 m ++ '-' :: pad2 d⟩

/-- A wall-clock instant in UTC: the calendar year of the instant and the
milliseconds elapsed since `new Date(year, 0, 0)` (midnight starting Dec 31
of the previous year). -/
structure Instant where
  year : Nat
  msOfYear : Nat
deriving DecidableEq

/-- The instant really lies inside its stated year: at or after Jan 1,
00:00 and before the end of Dec 31. -/
def Instant.valid (t : Instant) : Prop :=
  msPerDay ≤ t.msOfYear ∧ t.msOfYear < (daysInYear t.year + 1) * msPerDay

instance (t : Instant) : Decidable t.valid := by
  unfold Instant.valid; infer_instance

def dayOfYear (t : Instant) : Nat := t.msOfYear / msPerDay

def periodNumber (t : Instant) : Nat := dayOfYear t / COOLDOWN_DAYS

/-- The `COOLDOWN_DAYS`-wide window an instant falls in: windows are anchored
to January 1 of the instant's own year, so a window is identified by the
pair (year, period number within the year). -/
def window (t : Instant) : Nat × Nat := (t.year, periodNumber t)

/-- Strict order on windows: an earlier year, or the same year and an
earlier period number. -/
def windowLt (w1 w2 : Nat × Nat) : Prop :=
  w1.1 < w2.1 ∨ (w1.1 = w2.1 ∧ w1.2 < w2.2)

instance (w1 w2 : Nat × Nat) : Decidable (windowLt w1 w2) := by
  unfold windowLt; infer_instance

def periodStartTriple (t : Instant) : Nat × Nat × Nat :=
  civilFromYearDay t.year (periodNumber t * COOLDOWN_DAYS + 1)

/-- app.js lines 566-572. -/
def getCooldownPeriodStart (t : Instant) : String :=
  isoOfTriple (periodStartTriple t)

/-! ## Data model

`UsageData` is the record persisted in `localStorage` under the key
`unhinged_usage` (app.js `getUsageData` / `saveUsageData`, lines 554-564):
fields absent from the stored JSON object are `none`.  `GenRow` is a row of
the remote `generations` table, `CreditsRow` a row of the `credits` table
(its write-only `updated_at` timestamp is omitted).  `AppState` collects the
mutable session globals (app.js lines 4-12 and 582-584), the persisted local
record, and the remote rows belonging to the session, with the remote
`generations` list kept in insertion order. -/

structure Opener where
  type : String
  emoji : String
  text : String
deriving DecidableEq

structure HistoryEntry where
  id : Nat
  matchName : String
  openers : List Opener
  mode : String
  analysis : Option String
  date : String
deriving DecidableEq

structure UsageData where
  count : Option Nat
  period : Option String
  total : Option Nat
  history : Option (List HistoryEntry)
deriving DecidableEq

structure GenRow where
  user_id : String
  match_name : String
  openers : List Opener
  mode : String
  analysis : Option String
  created_at : String
deriving DecidableEq

structure CreditsRow where
  balance : Int
  total_purchased : Int
deriving DecidableEq

structure AppState where
  currentUser : Option String
  purchasedCredits : Int
  credits : Option CreditsRow
  localData : UsageData
  cachedCloudUsage : Option Nat
  cachedCloudUsagePeriod : Option String
  generations : List GenRow
deriving DecidableEq

/-- Result of a counting read: the value produced, the session state after
the call, and how many remote free-count queries the call issued. -/
structure CountRead where
  value : Nat
  state : AppState
  queries : Nat
deriving DecidableEq

/-- Like `CountRead` but for the `Math.max(0, ...)` remaining-quota value. -/
structure FreeRead where
  value : Int
  state : AppState
  queries : Nat
deriving DecidableEq

/-- Result of an operation returning a success boolean. -/
structure OpResult where
  ok : Bool
  state : AppState
  queries : Nat
deriving DecidableEq

/-! ## Operations

Functions suffixed `K` take the current cooldown period key as an argument;
the unsuffixed wrappers compute it from the clock exactly as the source does
by calling `getCooldownPeriodStart()` internally. -/

/-- app.js lines 554-560 (the `catch` branch returning `{}` corresponds to
the all-`none` record). -/
def getUsageData (s : AppState) : UsageData := s.localData

/-- app.js lines 562-564. -/
def saveUsageData (s : AppState) (d : UsageData) : AppState :=
  { s with localData := d }

/-- app.js line 597: `periodStart + 'T00:00:00Z'`. -/
def startTimeOf (periodStart : String) : String := periodStart ++ "T00:00:00Z"

/-- The remote count query of app.js lines 598-602: rows of `generations`
for the user with `created_at >= startTime` (ISO timestamps compare
lexicographically). -/
def countGenerationsSince (rows : List GenRow) (uid start : String) : Nat :=
  (rows.filter fun r => r.user_id == uid && !decide (r.created_at < start)).length

/-- app.js lines 586-618 (`getFreeUsageCount`), success path of the remote
query. -/
def getFreeUsageCountK (s : AppState) (key : String) : CountRead :=
  match s.currentUser with
  | some uid =>
      if s.cachedCloudUsagePeriod = some key ∧ s.cachedCloudUsage.isSome then
        ⟨s.cachedCloudUsage.getD 0, s, 0⟩
      else
        let c := countGenerationsSince s.generations uid (startTimeOf key)
        ⟨c, { s with cachedCloudUsage := some c, cachedCloudUsagePeriod := some key }, 1⟩
  | none =>
      if s.localData.period = some key then ⟨s.localData.count.getD 0, s, 0⟩
      else ⟨0, s, 0⟩

def getFreeUsageCount (s : AppState) (now : Instant) : CountRead :=
  getFreeUsageCountK s (getCooldownPeriodStart now)

/-- app.js lines 643-645. -/
def getFreeLimit (s : AppState) : Nat :=
  if s.currentUser.isSome then FREE_LIMIT_AUTHENTICATED else FREE_LIMIT_ANONYMOUS

/-- app.js lines 647-650. -/
def getRemainingFreeGenerationsK (s : AppState) (key : String) : FreeRead :=
  let r := getFreeUsageCountK s key
  ⟨max 0 ((getFreeLimit s : Int) - (r.value : Int)), r.state, r.queries⟩

def getRemainingFreeGenerations (s : AppState) (now : Instant) : FreeRead :=
  getRemainingFreeGenerationsK s (getCooldownPeriodStart now)

/-- app.js lines 657-660. -/
def canGenerateK (s : AppState) (key : String) : OpResult :=
  let r := getRemainingFreeGenerationsK s key
  ⟨decide (0 < r.value) || decide (0 < r.state.purchasedCredits), r.state, r.queries⟩

def canGenerate (s : AppState) (now : Instant) : OpResult :=
  canGenerateK s (getCooldownPeriodStart now)

/-- app.js lines 621-624: `if (cachedCloudUsage !== null) cachedCloudUsage++`. -/
def bumpCache (s : AppState) : AppState :=
  match s.cachedCloudUsage with
  | some c => { s with cachedCloudUsage := some (c + 1) }
  | none => s

/-- app.js lines 627-637: the `localStorage` part of `incrementUsage` —
lazy period reset, then `count` and `total` each incremented by 1. -/
def incrementLocalK (s : AppState) (key : String) : AppState :=
  let data := s.localData
  let data1 :=
    if data.period = some key then data
    else { data with count := some 0, period := some key }
  let data2 := { data1 with
    count := some (data1.count.getD 0 + 1),
    total := some (data1.total.getD 0 + 1) }
  saveUsageData s data2

/-- The display refresh `updateStats` (app.js 463-492) is display-only apart from one
`getRemainingFreeGenerations` read (line 464), which can populate the
free-count cache; its lifetime-total query is not a free-count read. -/
def updateStatsK (s : AppState) (key : String) : AppState × Nat :=
  let r := getFreeUsageCountK s key
  (r.state, r.queries)

/-- The display refresh `updateGenerateUsage` (app.js 494-520) is display-only apart from two
`getRemainingFreeGenerations` reads (lines 499 and 517). -/
def updateGenerateUsageK (s : AppState) (key : String) : AppState × Nat :=
  let r1 := getFreeUsageCountK s key
  let r2 := getFreeUsageCountK r1.state key
  (r2.state, r1.queries + r2.queries)

def refreshDisplaysK (s : AppState) (key : String) : AppState × Nat :=
  let p1 := updateStatsK s key
  let p2 := updateGenerateUsageK p1.1 key
  (p2.1, p1.2 + p2.2)

/-- app.js lines 620-641 (`incrementUsage`), including the trailing
`updateStats()` / `updateGenerateUsage()` display refreshes. -/
def incrementUsageK (s : AppState) (key : String) : AppState × Nat :=
  let s2 := incrementLocalK (bumpCache s) key
  refreshDisplaysK s2 key

def incrementUsage (s : AppState) (now : Instant) : AppState × Nat :=
  incrementUsageK s (getCooldownPeriodStart now)

/-- app.js lines 235-255 (`useCredit`), success path of the remote update:
the `credits` row (if any) gets `balance := purchasedCredits - 1`, then the
in-memory mirror is decremented. -/
def useCredit (s : AppState) : OpResult :=
  match s.currentUser with
  | none => ⟨false, s, 0⟩
  | some _ =>
      if s.purchasedCredits ≤ 0 then ⟨false, s, 0⟩
      else
        ⟨true,
          { s with
              credits := s.credits.map fun row =>
                { row with balance := s.purchasedCredits - 1 },
              purchasedCredits := s.purchasedCredits - 1 },
          0⟩

/-- app.js lines 211-233 (`addCredits`), success path of the upsert: the
`credits` row is created-or-replaced with both `balance` and
`total_purchased` set to `purchasedCredits + amount`, then the mirror is
incremented and `updateStats()` runs. -/
def addCreditsK (s : AppState) (amount : Int) (key : String) : OpResult :=
  match s.currentUser with
  | none => ⟨false, s, 0⟩
  | some _ =>
      let s1 := { s with
        credits := some ⟨s.purchasedCredits + amount, s.purchasedCredits + amount⟩,
        purchasedCredits := s.purchasedCredits + amount }
      let p := updateStatsK s1 key
      ⟨true, p.1, p.2⟩

def addCredits (s : AppState) (amount : Int) (now : Instant) : OpResult :=
  addCreditsK s amount (getCooldownPeriodStart now)

/-- The credit branch's bookkeeping write of app.js lines 672-674:
`data.total = (data.total || 0) + 1` and save. -/
def bumpTotal (s : AppState) : AppState :=
  saveUsageData s { s.localData with total := some (s.localData.total.getD 0 + 1) }

/-- app.js lines 662-679 (`consumeGeneration`), including the trailing
display refreshes. -/
def consumeGenerationK (s : AppState) (key : String) : AppState × Nat :=
  let r := getRemainingFreeGenerationsK s key
  if 0 < r.value then
    let p1 := incrementUsageK r.state key
    let p2 := refreshDisplaysK p1.1 key
    (p2.1, r.queries + p1.2 + p2.2)
  else if 0 < r.state.purchasedCredits then
    let u := useCredit r.state
    let p2 := refreshDisplaysK (bumpTotal u.state) key
    (p2.1, r.queries + p2.2)
  else
    let p1 := refreshDisplaysK r.state key
    (p1.1, r.queries + p1.2)

def consumeGeneration (s : AppState) (now : Instant) : AppState × Nat :=
  consumeGenerationK s (getCooldownPeriodStart now)

/-- app.js lines 684-717 (`saveToHistory`): prepend to the local history,
truncate to 50, write back; when signed in, also insert one remote row
(`created_at` assigned by the store at insertion time). -/
def saveToHistory (s : AppState) (matchName : String) (openers : List Opener)
    (mode : String) (analysis : Option String) (nowId : Nat) (nowIso : String) :
    AppState :=
  let data := s.localData
  let hist := data.history.getD []
  let newItem : HistoryEntry := ⟨nowId, matchName, openers, mode, analysis, nowIso⟩
  let s1 := saveUsageData s { data with history := some ((newItem :: hist).take 50) }
  match s1.currentUser with
  | some uid =>
      { s1 with generations :=
          s1.generations ++ [⟨uid, matchName, openers, mode, analysis, nowIso⟩] }
  | none => s1

/-- The remote rows belonging to one identity (the `eq('user_id', ...)`
filter). -/
def rowsFor (s : AppState) (uid : String) : List GenRow :=
  s.generations.filter fun r => r.user_id == uid

/-- The row inserted for one migrated history entry (app.js lines 828-834):
it copies the entry's fields and original date but not its `analysis`. -/
def migrateRow (uid : String) (it : HistoryEntry) : GenRow :=
  ⟨uid, it.matchName, it.openers, it.mode, none, it.date⟩

/-- app.js lines 806-840 (`migrateLocalHistoryToCloud`), success path:
returns the new state and the number of rows inserted.  The migration
insert copies `matchName`, `openers`, `mode` and the original `date` (as
`created_at`) but not `analysis` (lines 828-834). -/
def migrateLocalHistoryToCloud (s : AppState) : AppState × Nat :=
  match s.currentUser with
  | none => (s, 0)
  | some uid =>
      let hist := s.localData.history.getD []
      if hist.isEmpty then (s, 0)
      else if !(rowsFor s uid).isEmpty then (s, 0)
      else
        let items := hist.take 20
        ({ s with generations := s.generations ++ items.map (migrateRow uid) },
         items.length)

/-! ## Operation sequences -/

/-- The operations through which the session touches the free-usage count. -/
inductive UsageOp
  | read
  | increment
  | consume
deriving DecidableEq

def runUsageOp (s : AppState) (key : String) : UsageOp → AppState × Nat
  | .read =>
      let r := getFreeUsageCountK s key
      (r.state, r.queries)
  | .increment => incrementUsageK s key
  | .consume => consumeGenerationK s key

/-- Run a list of usage operations, each at its own instant, accumulating
the number of remote free-count queries issued. -/
def runUsageOps (s : AppState) : List (UsageOp × Instant) → AppState × Nat
  | [] => (s, 0)
  | (op, t) :: rest =>
      let p := runUsageOp s (getCooldownPeriodStart t) op
      let q := runUsageOps p.1 rest
      (q.1, p.2 + q.2)

/-- The Credit Ledger operations. -/
inductive CreditOp
  | add (amount : Int)
  | spend
deriving DecidableEq

def runCreditOp (s : AppState) (key : String) : CreditOp → AppState
  | .add a => (addCreditsK s a key).state
  | .spend => (useCredit s).state

def runCreditOps (s : AppState) (key : String) : List CreditOp → AppState
  | [] => s
  | op :: rest => runCreditOps (runCreditOp s key op) key rest

/-- One `saveToHistory` call with the entry's fields bundled as a
`HistoryEntry`. -/
def saveEntry (s : AppState) (e : HistoryEntry) : AppState :=
  saveToHistory s e.matchName e.openers e.mode e.analysis e.id e.date

def saveEntries (s : AppState) : List HistoryEntry → AppState
  | [] => s
  | e :: es => saveEntries (saveEntry s e) es

/-! ## Predicates used by the statements -/

/-- The in-memory remote-usage cache holds a value for the given period key
(app.js line 592's guard). -/
def CacheValid (s : AppState) (key : String) : Prop :=
  s.cachedCloudUsagePeriod = some key ∧ s.cachedCloudUsage.isSome = true

instance (s : AppState) (key : String) : Decidable (CacheValid s key) := by
  unfold CacheValid; infer_instance

/-- States on which `getFreeUsageCountK` is a pure read: anonymous sessions
always are; authenticated ones are once the cache is valid. -/
def StableS (s : AppState) (key : String) : Prop :=
  s.currentUser = none ∨ CacheValid s key

/-- The Credit Ledger's session invariant: the in-memory mirror is
non-negative and agrees with the persisted row when one exists. -/
def CreditInv (s : AppState) : Prop :=
  0 ≤ s.purchasedCredits ∧ ∀ row, s.credits = some row → row.balance = s.purchasedCredits

/-- The persisted credit balance (0 when no row exists). -/
def balanceOf (c : Option CreditsRow) : Int :=
  match c with
  | some row => row.balance
  | none => 0

/-! ## Concrete states and instants for witnesses and counterexamples -/

/-- Noon, Jan 1 2025 (UTC): period key `2025-01-01`. -/
def now0 : Instant := ⟨2025, msPerDay + msPerDay / 2⟩

/-- Noon, Jan 3 2025 (UTC): period key `2025-01-03`. -/
def now3 : Instant := ⟨2025, 3 * msPerDay + msPerDay / 2⟩

/-- Midnight starting Dec 31 2024, the single-day final window (number 183)
of leap year 2024. -/
def tDec31 : Instant := ⟨2024, 366 * msPerDay⟩

/-- Midnight starting Jan 1 2025, the first window of 2025. -/
def tJan1 : Instant := ⟨2025, msPerDay⟩

def sampleOpener : Opener := ⟨"witty", "😀", "hey there"⟩

def sampleEntry : HistoryEntry :=
  ⟨1700000000000, "Alex", [sampleOpener], "chaotic", none, "2024-12-30T12:00:00.000Z"⟩

def entryNum (n : Nat) : HistoryEntry :=
  ⟨n, "Match", [], "flirty", none, "2024-12-30T12:00:00.000Z"⟩

/-- A fresh anonymous session. -/
def wAnon : AppState := ⟨none, 0, none, ⟨none, none, none, none⟩, none, none, []⟩

/-- An anonymous session whose persisted record belongs to a stale period. -/
def wStale : AppState :=
  ⟨none, 0, none, ⟨some 5, some "2024-12-31", some 9, some [sampleEntry]⟩, none, none, []⟩

/-- An authenticated session with a synced credits row whose lifetime total
(25) exceeds its balance (0): all purchased credits have been spent. -/
def wSpent : AppState :=
  ⟨some "u1", 0, some ⟨0, 25⟩, ⟨none, none, none, none⟩, none, none, []⟩

/-- An authenticated session with free quota exhausted (cache at the limit)
and 3 purchased credits (Scenario B shape). -/
def wCredit : AppState :=
  ⟨some "u1", 3, some ⟨3, 25⟩, ⟨some 2, some "2025-01-01", some 12, none⟩,
   some 10, some "2025-01-01", []⟩

/-- An authenticated session with a valid cached free count of 2. -/
def wCached : AppState :=
  ⟨some "u1", 0, none, ⟨none, none, none, none⟩, some 2, some "2025-01-01", []⟩

/-- An authenticated session with 7 local history entries and no remote
rows (Scenario C shape). -/
def wMig : AppState :=
  ⟨some "u1", 0, none,
   ⟨some 7, some "2024-12-30", some 7,
    some [entryNum 7, entryNum 6, entryNum 5, entryNum 4, entryNum 3,
          entryNum 2, entryNum 1]⟩,
   none, none, []⟩

end Valtori

section ClockSanity
open Valtori

example : getCooldownPeriodStart ⟨2025, msPerDay⟩ = "2025-01-01" := by decide
example : getCooldownPeriodStart ⟨2025, 3 * msPerDay + 5000⟩ = "2025-01-03" := by decide
example : getCooldownPeriodStart ⟨2025, 2 * msPerDay⟩ = "2025-01-03" := by decide
example : getCooldownPeriodStart ⟨2024, 366 * msPerDay⟩ = "2025-01-01" := by decide
example : getCooldownPeriodStart ⟨2025, 365 * msPerDay⟩ = "2025-12-31" := by decide
example : getCooldownPeriodStart ⟨2025, 64 * msPerDay + 777⟩ = "2025-03-06" := by decide

end ClockSanity

namespace Valtori

/-! ## Helper lemmas: the free-count read and its cache -/

theorem read_anon {s : AppState} (key : String) (hu : s.currentUser = none) :
    getFreeUsageCountK s key =
      ⟨if s.localData.period = some key then s.localData.count.getD 0 else 0, s, 0⟩ := by
  simp only [getFreeUsageCountK, hu]
  split <;> rfl

theorem read_auth_hit {s : AppState} {uid : String} (key : String)
    (hu : s.currentUser = some uid) (hcv : CacheValid s key) :
    getFreeUsageCountK s key = ⟨s.cachedCloudUsage.getD 0, s, 0⟩ := by
  simp only [getFreeUsageCountK, hu]
  exact if_pos hcv

theorem read_auth_miss {s : AppState} {uid : String} (key : String)
    (hu : s.currentUser = some uid) (hcv : ¬ CacheValid s key) :
    getFreeUsageCountK s key =
      ⟨countGenerationsSince s.generations uid (startTimeOf key),
       { s with
          cachedCloudUsage :=
            some (countGenerationsSince s.generations uid (startTimeOf key)),
          cachedCloudUsagePeriod := some key }, 1⟩ := by
  simp only [getFreeUsageCountK, hu]
  exact if_neg hcv

/-- Either the read is pure, or it sets the cache for `key` and issues one
query. -/
theorem read_cases (s : AppState) (key : String) :
    getFreeUsageCountK s key = ⟨(getFreeUsageCountK s key).value, s, 0⟩ ∨
    ∃ c, getFreeUsageCountK s key =
        ⟨c, { s with cachedCloudUsage := some c, cachedCloudUsagePeriod := some key },
         1⟩ := by
  rcases hu : s.currentUser with _ | uid
  · left
    rw [read_anon key hu]
  · by_cases hcv : CacheValid s key
    · left
      rw [read_auth_hit key hu hcv]
    · right
      refine ⟨countGenerationsSince s.generations uid (startTimeOf key), ?_⟩
      rw [read_auth_miss key hu hcv, hu]

theorem read_localData (s : AppState) (key : String) :
    (getFreeUsageCountK s key).state.localData = s.localData := by
  rcases read_cases s key with h | ⟨c, h⟩ <;> rw [h]

theorem read_currentUser (s : AppState) (key : String) :
    (getFreeUsageCountK s key).state.currentUser = s.currentUser := by
  rcases read_cases s key with h | ⟨c, h⟩ <;> rw [h]

theorem read_purchasedCredits (s : AppState) (key : String) :
    (getFreeUsageCountK s key).state.purchasedCredits = s.purchasedCredits := by
  rcases read_cases s key with h | ⟨c, h⟩ <;> rw [h]

theorem read_credits (s : AppState) (key : String) :
    (getFreeUsageCountK s key).state.credits = s.credits := by
  rcases read_cases s key with h | ⟨c, h⟩ <;> rw [h]

theorem read_generations (s : AppState) (key : String) :
    (getFreeUsageCountK s key).state.generations = s.generations := by
  rcases read_cases s key with h | ⟨c, h⟩ <;> rw [h]

theorem read_queries_le_one (s : AppState) (key : String) :
    (getFreeUsageCountK s key).queries ≤ 1 := by
  rcases read_cases s key with h | ⟨c, h⟩
  · have h0 : (getFreeUsageCountK s key).queries = 0 := congrArg CountRead.queries h
    omega
  · have h1 : (getFreeUsageCountK s key).queries = 1 := congrArg CountRead.queries h
    omega

/-- Reading twice in a row: the second read is cached and pure. -/
theorem read_read (s : AppState) (key : String) :
    getFreeUsageCountK (getFreeUsageCountK s key).state key =
      ⟨(getFreeUsageCountK s key).value, (getFreeUsageCountK s key).state, 0⟩ := by
  rcases hu : s.currentUser with _ | uid
  · rw [read_anon key hu]
    exact read_anon key hu
  · by_cases hcv : CacheValid s key
    · rw [read_auth_hit key hu hcv]
      exact read_auth_hit key hu hcv
    · rw [read_auth_miss key hu hcv]
      exact read_auth_hit key hu ⟨rfl, rfl⟩

theorem updateStatsK_eq (s : AppState) (key : String) :
    updateStatsK s key =
      ((getFreeUsageCountK s key).state, (getFreeUsageCountK s key).queries) := rfl

theorem updateGenerateUsageK_eq (s : AppState) (key : String) :
    updateGenerateUsageK s key =
      ((getFreeUsageCountK s key).state, (getFreeUsageCountK s key).queries) := by
  unfold updateGenerateUsageK
  simp only [read_read, Nat.add_zero]

theorem refreshDisplaysK_eq (s : AppState) (key : String) :
    refreshDisplaysK s key =
      ((getFreeUsageCountK s key).state, (getFreeUsageCountK s key).queries) := by
  unfold refreshDisplaysK updateStatsK
  simp only [updateGenerateUsageK_eq, read_read, Nat.add_zero]

/-- A display refresh immediately after a read neither moves the state nor
queries again. -/
theorem refresh_post_read (s : AppState) (key : String) :
    refreshDisplaysK (getFreeUsageCountK s key).state key =
      ((getFreeUsageCountK s key).state, 0) := by
  rw [refreshDisplaysK_eq, read_read s key]

theorem refresh_localData (s : AppState) (key : String) :
    (refreshDisplaysK s key).1.localData = s.localData := by
  rw [refreshDisplaysK_eq]
  exact read_localData s key

theorem bumpCache_localData (s : AppState) : (bumpCache s).localData = s.localData := by
  unfold bumpCache
  cases s.cachedCloudUsage <;> rfl

theorem bumpCache_currentUser (s : AppState) :
    (bumpCache s).currentUser = s.currentUser := by
  unfold bumpCache
  cases s.cachedCloudUsage <;> rfl

theorem bumpCache_purchasedCredits (s : AppState) :
    (bumpCache s).purchasedCredits = s.purchasedCredits := by
  unfold bumpCache
  cases s.cachedCloudUsage <;> rfl

theorem bumpCache_credits (s : AppState) : (bumpCache s).credits = s.credits := by
  unfold bumpCache
  cases s.cachedCloudUsage <;> rfl

theorem incrementUsageK_localData (s : AppState) (key : String) :
    (incrementUsageK s key).1.localData =
      (incrementLocalK (bumpCache s) key).localData := by
  unfold incrementUsageK
  exact refresh_localData ..

/-- C3 (claim): for every identity and used count, the remaining free quota
is `max 0 (limit - used)` with limit 10 for authenticated and 5 for
anonymous identities, hence never negative. -/
theorem getRemainingFreeGenerations_clamped (s : AppState) (now : Instant) :
    (getRemainingFreeGenerations s now).value =
      max 0 ((if s.currentUser.isSome then (10 : Int) else 5) -
        (getFreeUsageCount s now).value) ∧
    0 ≤ (getRemainingFreeGenerations s now).value := by
  constructor
  · by_cases hu : s.currentUser.isSome <;>
      simp [getRemainingFreeGenerations, getRemainingFreeGenerationsK,
        getFreeUsageCount, getFreeLimit, hu, FREE_LIMIT_AUTHENTICATED,
        FREE_LIMIT_ANONYMOUS]
  · exact le_max_left 0 _

/-- C10 (claim): the query operations (`getUsageData`, `getFreeUsageCount`,
`getRemainingFreeGenerations`, `canGenerate`) never modify the persisted
local usage record, and an anonymous read under a stale period key reports
0 while leaving the whole session state untouched. -/
theorem usage_queries_pure (s : AppState) (now : Instant) :
    getUsageData s = s.localData ∧
    (getFreeUsageCount s now).state.localData = s.localData ∧
    (getRemainingFreeGenerations s now).state.localData = s.localData ∧
    (canGenerate s now).state.localData = s.localData ∧
    (s.currentUser = none →
      s.localData.period ≠ some (getCooldownPeriodStart now) →
      (getFreeUsageCount s now).value = 0 ∧ (getFreeUsageCount s now).state = s) := by
  refine ⟨rfl, read_localData .., read_localData .., read_localData .., ?_⟩
  intro hu hp
  have h := read_anon (getCooldownPeriodStart now) hu
  rw [getFreeUsageCount, h]
  rw [if_neg hp]
  exact ⟨rfl, rfl⟩

/-- Witness for C10 at a concrete stale anonymous state. -/
theorem usage_queries_pure_witness :
    getUsageData wStale = wStale.localData ∧
    (getFreeUsageCount wStale now0).state.localData = wStale.localData ∧
    (getRemainingFreeGenerations wStale now0).state.localData = wStale.localData ∧
    (canGenerate wStale now0).state.localData = wStale.localData ∧
    ((getFreeUsageCount wStale now0).value = 0 ∧
      (getFreeUsageCount wStale now0).state = wStale) := by
  have h := usage_queries_pure wStale now0
  exact ⟨h.1, h.2.1, h.2.2.1, h.2.2.2.1, h.2.2.2.2 (by decide) (by decide)⟩

/-- C6 (claim): when the persisted period key is stale, the next
`incrementUsage` resets the free count before incrementing (writing
`count = 1` under the new key) while still incrementing `total` by exactly
1; when the period key is current, both `count` and `total` are incremented
by exactly 1.  `history` is untouched in both cases. -/
theorem incrementUsage_lazy_reset (s : AppState) (now : Instant) :
    (s.localData.period ≠ some (getCooldownPeriodStart now) →
      (incrementUsage s now).1.localData.count = some 1 ∧
      (incrementUsage s now).1.localData.period =
        some (getCooldownPeriodStart now) ∧
      (incrementUsage s now).1.localData.total =
        some (s.localData.total.getD 0 + 1) ∧
      (incrementUsage s now).1.localData.history = s.localData.history) ∧
    (s.localData.period = some (getCooldownPeriodStart now) →
      (incrementUsage s now).1.localData.count =
        some (s.localData.count.getD 0 + 1) ∧
      (incrementUsage s now).1.localData.period =
        some (getCooldownPeriodStart now) ∧
      (incrementUsage s now).1.localData.total =
        some (s.localData.total.getD 0 + 1) ∧
      (incrementUsage s now).1.localData.history = s.localData.history) := by
  have hld : (incrementUsage s now).1.localData =
      (incrementLocalK (bumpCache s) (getCooldownPeriodStart now)).localData :=
    incrementUsageK_localData s (getCooldownPeriodStart now)
  rw [hld]
  unfold incrementLocalK saveUsageData
  rw [bumpCache_localData]
  constructor
  · intro hne
    simp [if_neg hne]
  · intro heq
    simp [if_pos heq, heq]

/-- Witness for C6: Scenario D — a stale record with `count = 5` under
period `2024-12-31` is reset and rewritten as `count = 1` under the current
key, with `total` going from 9 to 10. -/
theorem incrementUsage_lazy_reset_witness :
    (incrementUsage wStale now0).1.localData.count = some 1 ∧
    (incrementUsage wStale now0).1.localData.period = some "2025-01-01" ∧
    (incrementUsage wStale now0).1.localData.total = some 10 ∧
    (incrementUsage wStale now0).1.localData.history = wStale.localData.history := by
  have h := (incrementUsage_lazy_reset wStale now0).1 (by decide)
  refine ⟨h.1, ?_, h.2.2.1, h.2.2.2⟩
  rw [h.2.1]
  decide

theorem saveToHistory_history (s : AppState) (mn : String) (ops : List Opener)
    (md : String) (an : Option String) (nid : Nat) (niso : String) :
    (saveToHistory s mn ops md an nid niso).localData.history =
      some ((⟨nid, mn, ops, md, an, niso⟩ :: s.localData.history.getD []).take 50) := by
  unfold saveToHistory saveUsageData
  cases hc : s.currentUser <;> simp [hc]

theorem saveEntry_history (s : AppState) (e : HistoryEntry) :
    (saveEntry s e).localData.history =
      some ((e :: s.localData.history.getD []).take 50) := by
  unfold saveEntry
  rw [saveToHistory_history]

theorem saveEntry_length (s : AppState) (e : HistoryEntry) :
    ((saveEntry s e).localData.history.getD []).length =
      min 50 ((s.localData.history.getD []).length + 1) := by
  rw [saveEntry_history]
  simp only [Option.getD_some, List.length_take, List.length_cons]

theorem saveEntries_length_min (es : List HistoryEntry) :
    ∀ s : AppState, es ≠ [] →
      ((saveEntries s es).localData.history.getD []).length =
        min 50 ((s.localData.history.getD []).length + es.length) := by
  induction es with
  | nil => intro s h; cases h rfl
  | cons e rest ih =>
    intro s _
    show ((saveEntries (saveEntry s e) rest).localData.history.getD []).length = _
    by_cases hr : rest = []
    · subst hr
      show ((saveEntry s e).localData.history.getD []).length = _
      rw [saveEntry_length]
      simp
    · rw [ih (saveEntry s e) hr, saveEntry_length]
      simp only [List.length_cons]
      omega

/-- C7 (claim): `saveToHistory` prepends the new entry and truncates to at
most 50 entries; surviving older entries shift by one position, and after
appending 60 entries the stored history has length exactly 50. -/
theorem saveToHistory_bounded_prepend (s : AppState) (mn : String)
    (ops : List Opener) (md : String) (an : Option String) (nid : Nat)
    (niso : String) :
    (saveToHistory s mn ops md an nid niso).localData.history =
      some ((⟨nid, mn, ops, md, an, niso⟩ :: s.localData.history.getD []).take 50) ∧
    ((saveToHistory s mn ops md an nid niso).localData.history.getD []).length =
      min 50 ((s.localData.history.getD []).length + 1) ∧
    ((saveToHistory s mn ops md an nid niso).localData.history.getD []).length ≤ 50 ∧
    ((saveToHistory s mn ops md an nid niso).localData.history.getD [])[0]? =
      some ⟨nid, mn, ops, md, an, niso⟩ ∧
    (∀ i, i + 1 < 50 →
      ((saveToHistory s mn ops md an nid niso).localData.history.getD [])[i + 1]? =
        (s.localData.history.getD [])[i]?) ∧
    (∀ es : List HistoryEntry, es.length = 60 →
      ((saveEntries s es).localData.history.getD []).length = 50) := by
  have hh : (saveToHistory s mn ops md an nid niso).localData.history =
      some ((⟨nid, mn, ops, md, an, niso⟩ :: s.localData.history.getD []).take 50) :=
    saveToHistory_history s mn ops md an nid niso
  refine ⟨hh, ?_, ?_, ?_, ?_, ?_⟩
  · rw [hh]
    simp only [Option.getD_some, List.length_take, List.length_cons]
  · rw [hh]
    simp only [Option.getD_some, List.length_take, List.length_cons]
    omega
  · rw [hh]
    simp only [Option.getD_some]
    rw [List.getElem?_take_of_lt (by omega)]
    simp
  · intro i hi
    rw [hh]
    simp only [Option.getD_some]
    rw [List.getElem?_take_of_lt hi]
    simp
  · intro es hlen
    rw [saveEntries_length_min es s (by intro h; rw [h] at hlen; exact absurd hlen (by decide)),
      hlen]
    omega

/-- Witness for C7 at concrete inputs: one append to the fresh anonymous
state, the index-0 shift, and a 60-entry append run ending at length 50. -/
theorem saveToHistory_bounded_prepend_witness :
    (saveToHistory wAnon "Sam" [] "poetic" none 7 "2025-01-01T00:00:00.000Z").localData.history =
      some [⟨7, "Sam", [], "poetic", none, "2025-01-01T00:00:00.000Z"⟩] ∧
    ((saveToHistory wAnon "Sam" [] "poetic" none 7
        "2025-01-01T00:00:00.000Z").localData.history.getD [])[1]? =
      (wAnon.localData.history.getD [])[0]? ∧
    ((saveEntries wAnon (List.replicate 60 sampleEntry)).localData.history.getD []).length =
      50 := by
  have h := saveToHistory_bounded_prepend wAnon "Sam" [] "poetic" none 7
    "2025-01-01T00:00:00.000Z"
  refine ⟨?_, h.2.2.2.2.1 0 (by omega), h.2.2.2.2.2 (List.replicate 60 sampleEntry)
    (by simp)⟩
  rw [h.1]
  decide

/-! ## Migration -/

theorem migrate_skip_nonempty {s : AppState} {uid : String}
    (hu : s.currentUser = some uid) (hr : rowsFor s uid ≠ []) :
    migrateLocalHistoryToCloud s = (s, 0) := by
  simp only [migrateLocalHistoryToCloud, hu]
  split_ifs with h1 h2
  · rfl
  · rfl
  · exact absurd (List.isEmpty_iff.mp (by simpa using h2)) hr

theorem migrate_run {s : AppState} {uid : String} (hu : s.currentUser = some uid)
    (hr : rowsFor s uid = []) (hh : s.localData.history.getD [] ≠ []) :
    (migrateLocalHistoryToCloud s).1.generations =
      s.generations ++
        ((s.localData.history.getD []).take 20).map (migrateRow uid) ∧
    (migrateLocalHistoryToCloud s).1.localData = s.localData ∧
    (migrateLocalHistoryToCloud s).1.currentUser = some uid ∧
    (migrateLocalHistoryToCloud s).2 =
      ((s.localData.history.getD []).take 20).length := by
  simp only [migrateLocalHistoryToCloud, hu]
  split_ifs with h1 h2
  · exact absurd (List.isEmpty_iff.mp h1) hh
  · rw [hr] at h2
    exact absurd h2 (by simp)
  · exact ⟨rfl, rfl, rfl, rfl⟩

theorem migrate_localData (s : AppState) :
    (migrateLocalHistoryToCloud s).1.localData = s.localData := by
  unfold migrateLocalHistoryToCloud
  cases s.currentUser <;> simp <;> split_ifs <;> rfl

/-- C4 (claim): `migrateLocalHistoryToCloud` copies at most the 20 most
recent local entries, in the local ledger's own enumeration order, and does
so only when the remote store has zero rows for the identity; local history
is untouched, and a repeat call (the remote store now being non-empty)
performs zero inserts. -/
theorem migrateLocalHistoryToCloud_spec (s : AppState) (uid : String)
    (hu : s.currentUser = some uid) :
    (migrateLocalHistoryToCloud s).1.localData = s.localData ∧
    (rowsFor s uid ≠ [] → migrateLocalHistoryToCloud s = (s, 0)) ∧
    (rowsFor s uid = [] → s.localData.history.getD [] ≠ [] →
      (migrateLocalHistoryToCloud s).1.generations =
        s.generations ++
          ((s.localData.history.getD []).take 20).map (migrateRow uid) ∧
      (migrateLocalHistoryToCloud s).2 =
        ((s.localData.history.getD []).take 20).length ∧
      (migrateLocalHistoryToCloud s).2 ≤ 20 ∧
      migrateLocalHistoryToCloud (migrateLocalHistoryToCloud s).1 =
        ((migrateLocalHistoryToCloud s).1, 0)) := by
  refine ⟨migrate_localData s, fun hr => migrate_skip_nonempty hu hr, ?_⟩
  intro hr hh
  obtain ⟨hg, hld, hcu, hn⟩ := migrate_run hu hr hh
  refine ⟨hg, hn, ?_, ?_⟩
  · rw [hn, List.length_take]
    omega
  · apply migrate_skip_nonempty hcu
    rw [rowsFor, hg, List.filter_append]
    have hmap : (((s.localData.history.getD []).take 20).map (migrateRow uid)).filter
        (fun r => r.user_id == uid) =
        ((s.localData.history.getD []).take 20).map (migrateRow uid) := by
      apply List.filter_eq_self.mpr
      intro r hrmem
      obtain ⟨it, _, rfl⟩ := List.mem_map.mp hrmem
      simp [migrateRow]
    rw [hmap]
    intro hcontra
    have : ((s.localData.history.getD []).take 20).map (migrateRow uid) = [] :=
      (List.append_eq_nil.mp hcontra).2
    rw [List.map_eq_nil_iff, List.take_eq_nil_iff] at this
    rcases this with h | h
    · exact absurd h (by omega)
    · exact hh h

/-- Witness for C4: Scenario C — 7 local entries, empty remote store; the
migration inserts 7 rows, leaves local history unchanged, and a second call
inserts nothing. -/
theorem migrateLocalHistoryToCloud_spec_witness :
    (migrateLocalHistoryToCloud wMig).1.localData = wMig.localData ∧
    (migrateLocalHistoryToCloud wMig).2 = 7 ∧
    (migrateLocalHistoryToCloud wMig).2 ≤ 20 ∧
    migrateLocalHistoryToCloud (migrateLocalHistoryToCloud wMig).1 =
      ((migrateLocalHistoryToCloud wMig).1, 0) := by
  have h := migrateLocalHistoryToCloud_spec wMig "u1" rfl
  have h3 := h.2.2 (by decide) (by decide)
  refine ⟨h.1, ?_, h3.2.2.1, h3.2.2.2⟩
  rw [h3.2.1]
  decide

/-! ## Credit Ledger -/

theorem useCredit_noop {s : AppState}
    (h : s.purchasedCredits ≤ 0 ∨ s.currentUser = none) :
    useCredit s = ⟨false, s, 0⟩ := by
  rcases hu : s.currentUser with _ | uid
  · simp [useCredit, hu]
  · rcases h with h | h
    · simp [useCredit, hu, if_pos h]
    · rw [hu] at h
      cases h

theorem useCredit_auth {s : AppState} {uid : String}
    (hu : s.currentUser = some uid) (hpc : 0 < s.purchasedCredits) :
    (useCredit s).ok = true ∧
    (useCredit s).state.purchasedCredits = s.purchasedCredits - 1 ∧
    (useCredit s).state.credits =
      s.credits.map (fun row => ⟨s.purchasedCredits - 1, row.total_purchased⟩) ∧
    (useCredit s).state.localData = s.localData ∧
    (useCredit s).state.currentUser = s.currentUser ∧
    (useCredit s).state.cachedCloudUsage = s.cachedCloudUsage ∧
    (useCredit s).state.cachedCloudUsagePeriod = s.cachedCloudUsagePeriod ∧
    (useCredit s).state.generations = s.generations := by
  simp only [useCredit, hu]
  rw [if_neg (by omega : ¬ s.purchasedCredits ≤ 0)]
  exact ⟨rfl, rfl, rfl, rfl, hu.symm ▸ rfl, rfl, rfl, rfl⟩

theorem addCreditsK_anon {s : AppState} (hu : s.currentUser = none)
    (amount : Int) (key : String) : addCreditsK s amount key = ⟨false, s, 0⟩ := by
  simp only [addCreditsK, hu]

theorem addCreditsK_auth {s : AppState} {uid : String}
    (hu : s.currentUser = some uid) (amount : Int) (key : String) :
    (addCreditsK s amount key).ok = true ∧
    (addCreditsK s amount key).state.credits =
      some ⟨s.purchasedCredits + amount, s.purchasedCredits + amount⟩ ∧
    (addCreditsK s amount key).state.purchasedCredits =
      s.purchasedCredits + amount := by
  simp only [addCreditsK, hu, updateStatsK_eq]
  refine ⟨trivial, ?_, ?_⟩
  · rw [read_credits]
  · rw [read_purchasedCredits]

/-- C1 (amended): a successful `addCredits` increases the persisted balance
by exactly `amount`, but writes `total_purchased := balance + amount` (the
new balance) instead of incrementing the previous `total_purchased` by
`amount`; so `totalPurchased` only grows by `amount` when it previously
equalled the balance, and is not monotone across add/spend sequences. -/
theorem addCredits_balance_and_total (s : AppState) (uid : String)
    (now : Instant) (amount : Int) (hu : s.currentUser = some uid)
    (_hamt : 0 ≤ amount)
    (hsync : ∀ row, s.credits = some row → row.balance = s.purchasedCredits)
    (hnone : s.credits = none → s.purchasedCredits = 0) :
    (addCredits s amount now).ok = true ∧
    (addCredits s amount now).state.credits =
      some ⟨balanceOf s.credits + amount, balanceOf s.credits + amount⟩ ∧
    (addCredits s amount now).state.purchasedCredits =
      balanceOf s.credits + amount := by
  have hb : balanceOf s.credits = s.purchasedCredits := by
    rcases hc : s.credits with _ | row
    · rw [balanceOf, hnone hc]
    · rw [balanceOf]
      exact hsync row hc
  obtain ⟨h1, h2, h3⟩ := addCreditsK_auth hu amount (getCooldownPeriodStart now)
  exact ⟨h1, by rw [addCredits, h2, hb], by rw [addCredits, h3, hb]⟩

/-- Counterexample for C1 as stated: in a synced authenticated state with
balance 0 and `total_purchased` 25 (all credits previously spent), adding
25 credits leaves `total_purchased` at 25 instead of raising it to 50 —
the persisted lifetime total is overwritten, not incremented, and here it
fails to grow by `amount`. -/
theorem addCredits_totalPurchased_not_incremented :
    wSpent.credits = some ⟨0, 25⟩ ∧
    (addCredits wSpent 25 now0).ok = true ∧
    (addCredits wSpent 25 now0).state.credits = some ⟨25, 25⟩ ∧
    (addCredits wSpent 25 now0).state.credits.map CreditsRow.total_purchased ≠
      some (25 + 25) := by decide

/-- Witness for the amended C1 at the concrete spent state. -/
theorem addCredits_balance_and_total_witness :
    (addCredits wSpent 25 now0).ok = true ∧
    (addCredits wSpent 25 now0).state.credits =
      some ⟨balanceOf wSpent.credits + 25, balanceOf wSpent.credits + 25⟩ ∧
    (addCredits wSpent 25 now0).state.purchasedCredits =
      balanceOf wSpent.credits + 25 :=
  addCredits_balance_and_total wSpent "u1" now0 25 rfl (by decide)
    (fun row h => by cases Option.some.inj h; rfl)
    (fun h => Option.noConfusion h)

theorem runCreditOp_inv {s : AppState} (key : String) (op : CreditOp)
    (hinv : CreditInv s) (hop : ∀ a, op = CreditOp.add a → 0 ≤ a) :
    CreditInv (runCreditOp s key op) := by
  rcases op with a | _
  · rcases hu : s.currentUser with _ | uid
    · rw [runCreditOp, addCreditsK_anon hu]
      exact hinv
    · obtain ⟨h1, h2, h3⟩ := addCreditsK_auth hu a key
      constructor
      · rw [runCreditOp, h3]
        have := hop a rfl
        have := hinv.1
        omega
      · intro row hrow
        rw [runCreditOp, h2] at hrow
        cases Option.some.inj hrow
        rw [runCreditOp, h3]
  · by_cases hno : s.purchasedCredits ≤ 0 ∨ s.currentUser = none
    · rw [runCreditOp, useCredit_noop hno]
      exact hinv
    · push_neg at hno
      obtain ⟨hpos, hsome⟩ := hno
      rcases hu : s.currentUser with _ | uid
      · exact absurd hu hsome
      · obtain ⟨h1, h2, h3, _⟩ := useCredit_auth hu (by omega)
        constructor
        · rw [runCreditOp, h2]
          omega
        · intro row hrow
          rw [runCreditOp, h3] at hrow
          rcases hc : s.credits with _ | row0
          · rw [hc] at hrow
            cases hrow
          · rw [hc] at hrow
            cases Option.some.inj hrow
            rw [runCreditOp, h2]

theorem runCreditOps_inv (ops : List CreditOp) :
    ∀ s : AppState, CreditInv s → (∀ a, CreditOp.add a ∈ ops → 0 ≤ a) →
      ∀ key, CreditInv (runCreditOps s key ops) := by
  induction ops with
  | nil => intro s hinv _ key; exact hinv
  | cons op rest ih =>
    intro s hinv hops key
    show CreditInv (runCreditOps (runCreditOp s key op) key rest)
    refine ih (runCreditOp s key op) ?_ ?_ key
    · exact runCreditOp_inv key op hinv
        (fun a h => hops a (by rw [h]; exact List.mem_cons_self ..))
    · exact fun a h => hops a (List.mem_cons_of_mem op h)

/-- C9 (claim): the credit balance never goes negative — `useCredit` is a
failing no-op when the balance is not positive or the identity is
anonymous, otherwise it decrements the balance by exactly 1; `addCredits`
on an anonymous identity fails and changes nothing; and along any sequence
of Credit Ledger operations with non-negative amounts, both the in-memory
and persisted balances stay non-negative. -/
theorem creditLedger_balance_nonneg (s : AppState) (key : String)
    (hinv : CreditInv s) :
    (∀ ops : List CreditOp, (∀ a, CreditOp.add a ∈ ops → 0 ≤ a) →
      0 ≤ (runCreditOps s key ops).purchasedCredits ∧
      ∀ row, (runCreditOps s key ops).credits = some row → 0 ≤ row.balance) ∧
    (s.purchasedCredits ≤ 0 ∨ s.currentUser = none →
      useCredit s = ⟨false, s, 0⟩) ∧
    (∀ uid, s.currentUser = some uid → 0 < s.purchasedCredits →
      (useCredit s).ok = true ∧
      (useCredit s).state.purchasedCredits = s.purchasedCredits - 1 ∧
      0 ≤ (useCredit s).state.purchasedCredits) ∧
    (s.currentUser = none → ∀ amount now,
      addCredits s amount now = ⟨false, s, 0⟩ ∧
      (addCredits s amount now).state.purchasedCredits = s.purchasedCredits) := by
  refine ⟨?_, fun h => useCredit_noop h, ?_, ?_⟩
  · intro ops hops
    have h := runCreditOps_inv ops s hinv hops key
    refine ⟨h.1, fun row hrow => ?_⟩
    rw [h.2 row hrow]
    exact h.1
  · intro uid hu hpc
    obtain ⟨h1, h2, _⟩ := useCredit_auth hu hpc
    refine ⟨h1, h2, ?_⟩
    rw [h2]
    have := hinv.1
    omega
  · intro hu amount now
    have h : addCredits s amount now = ⟨false, s, 0⟩ :=
      addCreditsK_anon hu amount (getCooldownPeriodStart now)
    exact ⟨h, by rw [h]⟩

/-- Witness for C9 at the concrete Scenario-B state (balance 3, synced
row): one spend then one add of 25 keeps both balances non-negative, a
spend succeeds and lands at 2, and the anonymous-add no-op holds on the
fresh anonymous state via a second application at `wAnon`. -/
theorem creditLedger_balance_nonneg_witness :
    (0 ≤ (runCreditOps wCredit "2025-01-01" [CreditOp.spend, CreditOp.add 25]).purchasedCredits) ∧
    (useCredit wCredit).ok = true ∧
    (useCredit wCredit).state.purchasedCredits = 2 ∧
    addCredits wAnon 25 now0 = ⟨false, wAnon, 0⟩ := by
  have hinv : CreditInv wCredit :=
    ⟨by decide, fun row h => by cases Option.some.inj h; rfl⟩
  have h := creditLedger_balance_nonneg wCredit "2025-01-01" hinv
  have hops : ∀ a, CreditOp.add a ∈ [CreditOp.spend, CreditOp.add 25] → 0 ≤ a := by
    intro a ha
    rcases List.mem_cons.mp ha with h1 | h1
    · cases h1
    · rcases List.mem_cons.mp h1 with h2 | h2
      · cases h2; decide
      · cases List.not_mem_nil _ h2
  have hspend := h.2.2.1 "u1" rfl (by decide)
  have hanonInv : CreditInv wAnon := ⟨by decide, fun row h => by cases h⟩
  have hanon := (creditLedger_balance_nonneg wAnon "2025-01-01" hanonInv).2.2.2
    rfl 25 now0
  exact ⟨(h.1 [CreditOp.spend, CreditOp.add 25] hops).1, hspend.1,
    by rw [hspend.2.1]; decide, hanon.1⟩

/-! ## Consumption -/

theorem read_post_cache {s : AppState} {uid : String} (key : String)
    (hu : s.currentUser = some uid) :
    (getFreeUsageCountK s key).state.cachedCloudUsage =
      some (getFreeUsageCountK s key).value ∧
    (getFreeUsageCountK s key).state.cachedCloudUsagePeriod = some key := by
  by_cases hcv : CacheValid s key
  · rw [read_auth_hit key hu hcv]
    obtain ⟨h1, h2⟩ := hcv
    refine ⟨?_, h1⟩
    rcases hc : s.cachedCloudUsage with _ | c
    · rw [hc] at h2
      cases h2
    · rfl
  · rw [read_auth_miss key hu hcv]
    exact ⟨rfl, rfl⟩

theorem bumpCache_period (s : AppState) :
    (bumpCache s).cachedCloudUsagePeriod = s.cachedCloudUsagePeriod := by
  unfold bumpCache
  cases s.cachedCloudUsage <;> rfl

theorem bumpCache_generations (s : AppState) :
    (bumpCache s).generations = s.generations := by
  unfold bumpCache
  cases s.cachedCloudUsage <;> rfl

theorem bumpCache_some {s : AppState} {c : Nat} (h : s.cachedCloudUsage = some c) :
    (bumpCache s).cachedCloudUsage = some (c + 1) := by
  simp only [bumpCache, h]

theorem incrementLocalK_fields (s : AppState) (key : String) :
    (incrementLocalK s key).currentUser = s.currentUser ∧
    (incrementLocalK s key).cachedCloudUsage = s.cachedCloudUsage ∧
    (incrementLocalK s key).cachedCloudUsagePeriod = s.cachedCloudUsagePeriod ∧
    (incrementLocalK s key).purchasedCredits = s.purchasedCredits ∧
    (incrementLocalK s key).credits = s.credits ∧
    (incrementLocalK s key).generations = s.generations :=
  ⟨rfl, rfl, rfl, rfl, rfl, rfl⟩

theorem incrementLocalK_localData (s : AppState) (key : String) :
    (incrementLocalK s key).localData.period = some key ∧
    (incrementLocalK s key).localData.count =
      some ((if s.localData.period = some key then s.localData.count.getD 0 else 0)
        + 1) := by
  unfold incrementLocalK saveUsageData
  by_cases h : s.localData.period = some key <;> simp [h]

/-- Reading right after the increment step returns the old value plus one,
without touching the state or the remote store. -/
theorem read_after_increment (s : AppState) (key : String) :
    getFreeUsageCountK
        (incrementLocalK (bumpCache (getFreeUsageCountK s key).state) key) key =
      ⟨(getFreeUsageCountK s key).value + 1,
       incrementLocalK (bumpCache (getFreeUsageCountK s key).state) key, 0⟩ := by
  rcases hu : s.currentUser with _ | uid
  · have hru : (getFreeUsageCountK s key).state = s ∧
        (getFreeUsageCountK s key).queries = 0 := by
      rw [read_anon key hu]
      exact ⟨rfl, rfl⟩
    have hu2 : (incrementLocalK (bumpCache (getFreeUsageCountK s key).state) key).currentUser
        = none := by
      rw [(incrementLocalK_fields ..).1, bumpCache_currentUser, hru.1, hu]
    rw [read_anon key hu2]
    obtain ⟨hper, hcnt⟩ :=
      incrementLocalK_localData (bumpCache (getFreeUsageCountK s key).state) key
    rw [hper, if_pos rfl, hcnt]
    have hld : (bumpCache (getFreeUsageCountK s key).state).localData = s.localData := by
      rw [bumpCache_localData, read_localData]
    rw [hld]
    have hv : (getFreeUsageCountK s key).value =
        if s.localData.period = some key then s.localData.count.getD 0 else 0 := by
      rw [read_anon key hu]
    rw [← hv]
    rfl
  · have hu2 : (incrementLocalK (bumpCache (getFreeUsageCountK s key).state) key).currentUser
        = some uid := by
      rw [(incrementLocalK_fields ..).1, bumpCache_currentUser, read_currentUser, hu]
    obtain ⟨hcache, hper⟩ := read_post_cache key hu
    have hc2 : (incrementLocalK (bumpCache (getFreeUsageCountK s key).state) key).cachedCloudUsage
        = some ((getFreeUsageCountK s key).value + 1) := by
      rw [(incrementLocalK_fields ..).2.1, bumpCache_some hcache]
    have hp2 : (incrementLocalK (bumpCache (getFreeUsageCountK s key).state) key).cachedCloudUsagePeriod
        = some key := by
      rw [(incrementLocalK_fields ..).2.2.1, bumpCache_period, hper]
    rw [read_auth_hit key hu2 ⟨hp2, by rw [hc2]; rfl⟩, hc2]
    rfl

theorem stable_of_anon {s : AppState} (key : String) (hu : s.currentUser = none) :
    getFreeUsageCountK s key = ⟨(getFreeUsageCountK s key).value, s, 0⟩ := by
  rw [read_anon key hu]

theorem stable_of_cv {s : AppState} {uid : String} (key : String)
    (hu : s.currentUser = some uid) (hcv : CacheValid s key) :
    getFreeUsageCountK s key = ⟨(getFreeUsageCountK s key).value, s, 0⟩ := by
  rw [read_auth_hit key hu hcv]

theorem refresh_stable {s : AppState} (key : String)
    (h : getFreeUsageCountK s key = ⟨(getFreeUsageCountK s key).value, s, 0⟩) :
    refreshDisplaysK s key = (s, 0) := by
  have h1 : (getFreeUsageCountK s key).state = s := congrArg CountRead.state h
  have h2 : (getFreeUsageCountK s key).queries = 0 := congrArg CountRead.queries h
  rw [refreshDisplaysK_eq, h1, h2]

theorem bumpTotal_fields (s : AppState) :
    (bumpTotal s).currentUser = s.currentUser ∧
    (bumpTotal s).purchasedCredits = s.purchasedCredits ∧
    (bumpTotal s).credits = s.credits ∧
    (bumpTotal s).cachedCloudUsage = s.cachedCloudUsage ∧
    (bumpTotal s).cachedCloudUsagePeriod = s.cachedCloudUsagePeriod ∧
    (bumpTotal s).generations = s.generations ∧
    (bumpTotal s).localData.count = s.localData.count ∧
    (bumpTotal s).localData.period = s.localData.period ∧
    (bumpTotal s).localData.history = s.localData.history ∧
    (bumpTotal s).localData.total = some (s.localData.total.getD 0 + 1) :=
  ⟨rfl, rfl, rfl, rfl, rfl, rfl, rfl, rfl, rfl, rfl⟩

/-- The free branch of `consumeGeneration`: final state and query count. -/
theorem consumeGenerationK_free (s : AppState) (key : String)
    (hfree : 0 < (getRemainingFreeGenerationsK s key).value) :
    consumeGenerationK s key =
      (incrementLocalK (bumpCache (getFreeUsageCountK s key).state) key,
       (getFreeUsageCountK s key).queries) := by
  have hstable := read_after_increment s key
  have hrs : (getRemainingFreeGenerationsK s key).state =
      (getFreeUsageCountK s key).state := rfl
  have hrq : (getRemainingFreeGenerationsK s key).queries =
      (getFreeUsageCountK s key).queries := rfl
  simp only [consumeGenerationK]
  rw [if_pos hfree]
  simp only [incrementUsageK, refreshDisplaysK_eq, hrs, hrq, hstable]
  simp

/-- The credit branch of `consumeGeneration`: final state and query count. -/
theorem consumeGenerationK_credit (s : AppState) {uid : String}
    (key : String) (hu : s.currentUser = some uid)
    (hno : ¬ 0 < (getRemainingFreeGenerationsK s key).value)
    (hpc : 0 < s.purchasedCredits) :
    consumeGenerationK s key =
      (bumpTotal (useCredit (getFreeUsageCountK s key).state).state,
       (getFreeUsageCountK s key).queries) := by
  have hpc2 : 0 < (getRemainingFreeGenerationsK s key).state.purchasedCredits := by
    have : (getRemainingFreeGenerationsK s key).state =
        (getFreeUsageCountK s key).state := rfl
    rw [this, read_purchasedCredits]
    exact hpc
  have hu1 : (getFreeUsageCountK s key).state.currentUser = some uid := by
    rw [read_currentUser, hu]
  obtain ⟨hcache, hper⟩ := read_post_cache key hu
  obtain ⟨_, _, _, _, hucu, huca, hucp, _⟩ := useCredit_auth hu1
    (by rw [read_purchasedCredits]; exact hpc)
  have hX := bumpTotal_fields (useCredit (getFreeUsageCountK s key).state).state
  have hXu : (bumpTotal (useCredit (getFreeUsageCountK s key).state).state).currentUser
      = some uid := by
    rw [hX.1, hucu, hu1]
  have hXcv : CacheValid (bumpTotal (useCredit (getFreeUsageCountK s key).state).state) key := by
    constructor
    · rw [hX.2.2.2.2.1, hucp, hper]
    · rw [hX.2.2.2.1, huca, hcache]
      rfl
  have hstable := stable_of_cv key hXu hXcv
  have hrs : (getRemainingFreeGenerationsK s key).state =
      (getFreeUsageCountK s key).state := rfl
  have hrq : (getRemainingFreeGenerationsK s key).queries =
      (getFreeUsageCountK s key).queries := rfl
  simp only [consumeGenerationK]
  rw [if_neg hno, if_pos hpc2]
  simp only [hrs, hrq]
  rw [refresh_stable key hstable]
  simp

/-- The denied branch of `consumeGeneration`: nothing but the read happens. -/
theorem consumeGenerationK_none (s : AppState) (key : String)
    (hno : ¬ 0 < (getRemainingFreeGenerationsK s key).value)
    (hnopc : ¬ 0 < (getRemainingFreeGenerationsK s key).state.purchasedCredits) :
    consumeGenerationK s key =
      ((getFreeUsageCountK s key).state, (getFreeUsageCountK s key).queries) := by
  have hrs : (getRemainingFreeGenerationsK s key).state =
      (getFreeUsageCountK s key).state := rfl
  have hrq : (getRemainingFreeGenerationsK s key).queries =
      (getFreeUsageCountK s key).queries := rfl
  simp only [consumeGenerationK]
  rw [if_neg hno, if_neg hnopc]
  simp only [hrs, hrq]
  rw [refresh_post_read]
  simp

/-- C2 (claim): when `canGenerate` returned true, one `consumeGeneration`
call consumes exactly one unit — a free slot (free count up by one, credit
balance and credits row untouched) when free quota remains, and exactly one
purchased credit (balance down by one, free count and local free counter
untouched) only when the remaining free quota is zero; never both, never
neither.  The anonymity hypothesis reflects that anonymous sessions always
hold a zero in-memory credit balance (app.js lines 12, 189, 207). -/
theorem consumeGeneration_exactly_one (s : AppState) (now : Instant)
    (hcan : (canGenerate s now).ok = true)
    (hanon : s.currentUser = none → s.purchasedCredits = 0) :
    (0 < (getRemainingFreeGenerations s now).value ∧
      (getFreeUsageCount (consumeGeneration s now).1 now).value =
        (getFreeUsageCount s now).value + 1 ∧
      (consumeGeneration s now).1.purchasedCredits = s.purchasedCredits ∧
      (consumeGeneration s now).1.credits = s.credits) ∨
    ((getRemainingFreeGenerations s now).value = 0 ∧
      0 < s.purchasedCredits ∧
      (consumeGeneration s now).1.purchasedCredits = s.purchasedCredits - 1 ∧
      (getFreeUsageCount (consumeGeneration s now).1 now).value =
        (getFreeUsageCount s now).value ∧
      (consumeGeneration s now).1.localData.count = s.localData.count) := by
  by_cases hfree : 0 < (getRemainingFreeGenerationsK s (getCooldownPeriodStart now)).value
  · left
    have hc := consumeGenerationK_free s (getCooldownPeriodStart now) hfree
    refine ⟨hfree, ?_, ?_, ?_⟩
    · show (getFreeUsageCountK (consumeGenerationK s (getCooldownPeriodStart now)).1
          (getCooldownPeriodStart now)).value =
        (getFreeUsageCountK s (getCooldownPeriodStart now)).value + 1
      rw [hc]
      have hv := congrArg CountRead.value
        (read_after_increment s (getCooldownPeriodStart now))
      simpa using hv
    · show (consumeGenerationK s (getCooldownPeriodStart now)).1.purchasedCredits =
        s.purchasedCredits
      rw [hc]
      rw [(incrementLocalK_fields ..).2.2.2.1, bumpCache_purchasedCredits,
        read_purchasedCredits]
    · show (consumeGenerationK s (getCooldownPeriodStart now)).1.credits = s.credits
      rw [hc]
      rw [(incrementLocalK_fields ..).2.2.2.2.1, bumpCache_credits, read_credits]
  · right
    have hv0 : (getRemainingFreeGenerationsK s (getCooldownPeriodStart now)).value = 0 := by
      have hge : (0 : Int) ≤
          (getRemainingFreeGenerationsK s (getCooldownPeriodStart now)).value :=
        le_max_left 0 _
      omega
    have hpc : 0 < s.purchasedCredits := by
      have hcan2 : (canGenerateK s (getCooldownPeriodStart now)).ok = true := hcan
      simp only [canGenerateK, Bool.or_eq_true, decide_eq_true_eq] at hcan2
      rcases hcan2 with h | h
      · exact absurd h hfree
      · have hps : (getRemainingFreeGenerationsK s
            (getCooldownPeriodStart now)).state.purchasedCredits =
            s.purchasedCredits := read_purchasedCredits s (getCooldownPeriodStart now)
        rw [hps] at h
        exact h
    rcases hu : s.currentUser with _ | uid
    · have := hanon hu
      omega
    · have hc := consumeGenerationK_credit s (getCooldownPeriodStart now) hu hfree hpc
      have hu1 : (getFreeUsageCountK s (getCooldownPeriodStart now)).state.currentUser =
          some uid := by
        rw [read_currentUser, hu]
      obtain ⟨hcache, hper⟩ := read_post_cache (getCooldownPeriodStart now) hu
      obtain ⟨_, hpcu, _, hldu, hucu, hcau, hcpu, _⟩ := useCredit_auth hu1
        (by rw [read_purchasedCredits]; exact hpc)
      have hX := bumpTotal_fields
        (useCredit (getFreeUsageCountK s (getCooldownPeriodStart now)).state).state
      refine ⟨hv0, hpc, ?_, ?_, ?_⟩
      · show (consumeGenerationK s (getCooldownPeriodStart now)).1.purchasedCredits =
          s.purchasedCredits - 1
        rw [hc, hX.2.1, hpcu, read_purchasedCredits]
      · show (getFreeUsageCountK (consumeGenerationK s (getCooldownPeriodStart now)).1
            (getCooldownPeriodStart now)).value =
          (getFreeUsageCountK s (getCooldownPeriodStart now)).value
        rw [hc]
        have hXu : (bumpTotal (useCredit (getFreeUsageCountK s
            (getCooldownPeriodStart now)).state).state).currentUser = some uid := by
          rw [hX.1, hucu, hu1]
        have hXca : (bumpTotal (useCredit (getFreeUsageCountK s
            (getCooldownPeriodStart now)).state).state).cachedCloudUsage =
            some (getFreeUsageCountK s (getCooldownPeriodStart now)).value := by
          rw [hX.2.2.2.1, hcau, hcache]
        have hXcp : (bumpTotal (useCredit (getFreeUsageCountK s
            (getCooldownPeriodStart now)).state).state).cachedCloudUsagePeriod =
            some (getCooldownPeriodStart now) := by
          rw [hX.2.2.2.2.1, hcpu, hper]
        rw [read_auth_hit (getCooldownPeriodStart now) hXu
          ⟨hXcp, by rw [hXca]; rfl⟩]
        show (bumpTotal (useCredit (getFreeUsageCountK s
            (getCooldownPeriodStart now)).state).state).cachedCloudUsage.getD 0 = _
        rw [hXca]
        rfl
      · show (consumeGenerationK s (getCooldownPeriodStart now)).1.localData.count =
          s.localData.count
        rw [hc, hX.2.2.2.2.2.2.1, hldu, read_localData]

/-- Witness for C2 at the concrete Scenario-B state: free quota exhausted
(cached count 10 of limit 10) and 3 purchased credits; consumption lands in
the credit branch, debiting exactly one credit. -/
theorem consumeGeneration_exactly_one_witness :
    (0 < (getRemainingFreeGenerations wCredit now0).value ∧
      (getFreeUsageCount (consumeGeneration wCredit now0).1 now0).value =
        (getFreeUsageCount wCredit now0).value + 1 ∧
      (consumeGeneration wCredit now0).1.purchasedCredits =
        wCredit.purchasedCredits ∧
      (consumeGeneration wCredit now0).1.credits = wCredit.credits) ∨
    ((getRemainingFreeGenerations wCredit now0).value = 0 ∧
      0 < wCredit.purchasedCredits ∧
      (consumeGeneration wCredit now0).1.purchasedCredits =
        wCredit.purchasedCredits - 1 ∧
      (getFreeUsageCount (consumeGeneration wCredit now0).1 now0).value =
        (getFreeUsageCount wCredit now0).value ∧
      (consumeGeneration wCredit now0).1.localData.count =
        wCredit.localData.count) :=
  consumeGeneration_exactly_one wCredit now0 (by decide)
    (fun h => Option.noConfusion h)

/-! ## Caching -/

theorem incrementUsageK_eq (s : AppState) (key : String) :
    incrementUsageK s key =
      ((getFreeUsageCountK (incrementLocalK (bumpCache s) key) key).state,
       (getFreeUsageCountK (incrementLocalK (bumpCache s) key) key).queries) := by
  unfold incrementUsageK
  rw [refreshDisplaysK_eq]

theorem cv_bump_increment {s : AppState} {key : String} (hcv : CacheValid s key) :
    CacheValid (incrementLocalK (bumpCache s) key) key := by
  obtain ⟨hp, hs⟩ := hcv
  obtain ⟨c, hc⟩ := Option.isSome_iff_exists.mp hs
  constructor
  · rw [(incrementLocalK_fields ..).2.2.1, bumpCache_period, hp]
  · rw [(incrementLocalK_fields ..).2.1, bumpCache_some hc]
    rfl

theorem runUsageOp_auth {s : AppState} {uid : String} (key : String)
    (hu : s.currentUser = some uid) (op : UsageOp) :
    (runUsageOp s key op).2 ≤ 1 ∧
    CacheValid (runUsageOp s key op).1 key ∧
    (runUsageOp s key op).1.currentUser = some uid := by
  have cvread : ∀ t : AppState, t.currentUser = some uid →
      CacheValid (getFreeUsageCountK t key).state key := by
    intro t ht
    obtain ⟨h1, h2⟩ := read_post_cache key ht
    exact ⟨h2, by rw [h1]; rfl⟩
  cases op with
  | read =>
    refine ⟨read_queries_le_one s key, cvread s hu, ?_⟩
    show (getFreeUsageCountK s key).state.currentUser = some uid
    rw [read_currentUser, hu]
  | increment =>
    have he : runUsageOp s key UsageOp.increment =
        ((getFreeUsageCountK (incrementLocalK (bumpCache s) key) key).state,
         (getFreeUsageCountK (incrementLocalK (bumpCache s) key) key).queries) :=
      incrementUsageK_eq s key
    have hu2 : (incrementLocalK (bumpCache s) key).currentUser = some uid := by
      rw [(incrementLocalK_fields ..).1, bumpCache_currentUser, hu]
    rw [he]
    refine ⟨read_queries_le_one .., cvread _ hu2, ?_⟩
    rw [read_currentUser, hu2]
  | consume =>
    have hu1 : (getFreeUsageCountK s key).state.currentUser = some uid := by
      rw [read_currentUser, hu]
    by_cases hfree : 0 < (getRemainingFreeGenerationsK s key).value
    · have hc : runUsageOp s key UsageOp.consume =
          (incrementLocalK (bumpCache (getFreeUsageCountK s key).state) key,
           (getFreeUsageCountK s key).queries) :=
        consumeGenerationK_free s key hfree
      rw [hc]
      refine ⟨read_queries_le_one .., cv_bump_increment (cvread s hu), ?_⟩
      rw [(incrementLocalK_fields ..).1, bumpCache_currentUser, hu1]
    · by_cases hpc : 0 < s.purchasedCredits
      · have hc : runUsageOp s key UsageOp.consume =
            (bumpTotal (useCredit (getFreeUsageCountK s key).state).state,
             (getFreeUsageCountK s key).queries) :=
          consumeGenerationK_credit s key hu hfree hpc
        obtain ⟨hcache, hper⟩ := read_post_cache key hu
        obtain ⟨_, _, _, _, hucu, hcau, hcpu, _⟩ := useCredit_auth hu1
          (by rw [read_purchasedCredits]; exact hpc)
        have hX := bumpTotal_fields (useCredit (getFreeUsageCountK s key).state).state
        rw [hc]
        refine ⟨read_queries_le_one .., ⟨?_, ?_⟩, ?_⟩
        · rw [hX.2.2.2.2.1, hcpu, hper]
        · rw [hX.2.2.2.1, hcau, hcache]
          rfl
        · rw [hX.1, hucu, hu1]
      · have hnopc : ¬ 0 < (getRemainingFreeGenerationsK s key).state.purchasedCredits := by
          have : (getRemainingFreeGenerationsK s key).state.purchasedCredits =
              s.purchasedCredits := read_purchasedCredits s key
          rw [this]
          exact hpc
        have hc : runUsageOp s key UsageOp.consume =
            ((getFreeUsageCountK s key).state, (getFreeUsageCountK s key).queries) :=
          consumeGenerationK_none s key hfree hnopc
        rw [hc]
        exact ⟨read_queries_le_one .., cvread s hu, hu1⟩

theorem runUsageOp_cv {s : AppState} {uid : String} (key : String)
    (hu : s.currentUser = some uid) (hcv : CacheValid s key) (op : UsageOp) :
    (runUsageOp s key op).2 = 0 := by
  have hq : ∀ t : AppState, t.currentUser = some uid → CacheValid t key →
      (getFreeUsageCountK t key).queries = 0 := by
    intro t ht htcv
    rw [read_auth_hit key ht htcv]
  cases op with
  | read => exact hq s hu hcv
  | increment =>
    show (incrementUsageK s key).2 = 0
    rw [incrementUsageK_eq]
    exact hq _ (by rw [(incrementLocalK_fields ..).1, bumpCache_currentUser, hu])
      (cv_bump_increment hcv)
  | consume =>
    show (consumeGenerationK s key).2 = 0
    by_cases hfree : 0 < (getRemainingFreeGenerationsK s key).value
    · rw [consumeGenerationK_free s key hfree]
      exact hq s hu hcv
    · by_cases hpc : 0 < s.purchasedCredits
      · rw [consumeGenerationK_credit s key hu hfree hpc]
        exact hq s hu hcv
      · have hnopc : ¬ 0 < (getRemainingFreeGenerationsK s key).state.purchasedCredits := by
          have : (getRemainingFreeGenerationsK s key).state.purchasedCredits =
              s.purchasedCredits := read_purchasedCredits s key
          rw [this]
          exact hpc
        rw [consumeGenerationK_none s key hfree hnopc]
        exact hq s hu hcv

theorem runUsageOps_zero (key : String) (ops : List (UsageOp × Instant)) :
    ∀ (s : AppState) (uid : String), s.currentUser = some uid →
      CacheValid s key → (∀ p ∈ ops, getCooldownPeriodStart p.2 = key) →
      (runUsageOps s ops).2 = 0 := by
  induction ops with
  | nil => intro s uid _ _ _; rfl
  | cons p rest ih =>
    intro s uid hu hcv hk
    obtain ⟨op, t⟩ := p
    have hkey : getCooldownPeriodStart t = key := hk (op, t) (List.mem_cons_self ..)
    have hsplit : (runUsageOps s ((op, t) :: rest)).2 =
        (runUsageOp s (getCooldownPeriodStart t) op).2 +
        (runUsageOps (runUsageOp s (getCooldownPeriodStart t) op).1 rest).2 := rfl
    rw [hsplit, hkey]
    have h1 := runUsageOp_cv key hu hcv op
    have h2 := runUsageOp_auth key hu op
    rw [h1, ih (runUsageOp s key op).1 uid h2.2.2 h2.2.1
      (fun q hq => hk q (List.mem_cons_of_mem _ hq))]

/-- C8 (claim): for an authenticated identity, the remote free-count read
is cached per period key — any sequence of reads, increments and consumes
within one period issues at most one remote free-count query, a cached
value is returned without querying, and a local increment updates the
cached value (keeping it valid) rather than forcing a new query. -/
theorem getFreeUsageCount_cached_per_period (s : AppState) (uid : String)
    (now : Instant) (hu : s.currentUser = some uid) :
    (∀ ops : List (UsageOp × Instant),
      (∀ p ∈ ops, getCooldownPeriodStart p.2 = getCooldownPeriodStart now) →
      (runUsageOps s ops).2 ≤ 1) ∧
    (∀ c, s.cachedCloudUsage = some c →
      s.cachedCloudUsagePeriod = some (getCooldownPeriodStart now) →
      getFreeUsageCount s now = ⟨c, s, 0⟩ ∧
      (incrementUsage s now).1.cachedCloudUsage = some (c + 1) ∧
      (incrementUsage s now).2 = 0) := by
  constructor
  · intro ops hk
    cases ops with
    | nil => exact Nat.zero_le 1
    | cons p rest =>
      obtain ⟨op, t⟩ := p
      have hkey : getCooldownPeriodStart t = getCooldownPeriodStart now :=
        hk (op, t) (List.mem_cons_self ..)
      have hsplit : (runUsageOps s ((op, t) :: rest)).2 =
          (runUsageOp s (getCooldownPeriodStart t) op).2 +
          (runUsageOps (runUsageOp s (getCooldownPeriodStart t) op).1 rest).2 := rfl
      rw [hsplit, hkey]
      have h1 := runUsageOp_auth (getCooldownPeriodStart now) hu op
      have h2 := runUsageOps_zero (getCooldownPeriodStart now) rest
        (runUsageOp s (getCooldownPeriodStart now) op).1 uid h1.2.2 h1.2.1
        (fun q hq => hk q (List.mem_cons_of_mem _ hq))
      omega
  · intro c hc hp
    have hcv : CacheValid s (getCooldownPeriodStart now) := ⟨hp, by rw [hc]; rfl⟩
    have hhit : getFreeUsageCount s now = ⟨c, s, 0⟩ := by
      show getFreeUsageCountK s (getCooldownPeriodStart now) = _
      rw [read_auth_hit (getCooldownPeriodStart now) hu hcv, hc]
      rfl
    refine ⟨hhit, ?_, ?_⟩
    · show (incrementUsageK s (getCooldownPeriodStart now)).1.cachedCloudUsage =
        some (c + 1)
      rw [incrementUsageK_eq]
      have hu2 : (incrementLocalK (bumpCache s) (getCooldownPeriodStart now)).currentUser
          = some uid := by
        rw [(incrementLocalK_fields ..).1, bumpCache_currentUser, hu]
      have hcv2 := cv_bump_increment hcv
      rw [read_auth_hit (getCooldownPeriodStart now) hu2 hcv2]
      show (incrementLocalK (bumpCache s) (getCooldownPeriodStart now)).cachedCloudUsage
        = some (c + 1)
      rw [(incrementLocalK_fields ..).2.1, bumpCache_some hc]
    · show (incrementUsageK s (getCooldownPeriodStart now)).2 = 0
      rw [incrementUsageK_eq]
      have hu2 : (incrementLocalK (bumpCache s) (getCooldownPeriodStart now)).currentUser
          = some uid := by
        rw [(incrementLocalK_fields ..).1, bumpCache_currentUser, hu]
      rw [read_auth_hit (getCooldownPeriodStart now) hu2
        (cv_bump_increment hcv)]

/-- Witness for C8 at the concrete cached state `wCached` (cached value 2
for the current period): a read-increment-read sequence issues no query,
the cached value is returned as-is, and the increment bumps the cache. -/
theorem getFreeUsageCount_cached_per_period_witness :
    (runUsageOps wCached
      [(UsageOp.read, now0), (UsageOp.increment, now0), (UsageOp.read, now0)]).2 ≤ 1 ∧
    getFreeUsageCount wCached now0 = ⟨2, wCached, 0⟩ ∧
    (incrementUsage wCached now0).1.cachedCloudUsage = some 3 ∧
    (incrementUsage wCached now0).2 = 0 := by
  have h := getFreeUsageCount_cached_per_period wCached "u1" now0 rfl
  have h2 := h.2 2 rfl (by decide)
  exact ⟨h.1 [(UsageOp.read, now0), (UsageOp.increment, now0), (UsageOp.read, now0)]
    (by intro p hp; rcases List.mem_cons.mp hp with h | hp2
        · rw [h]
        · rcases List.mem_cons.mp hp2 with h | hp3
          · rw [h]
          · rcases List.mem_cons.mp hp3 with h | hp4
            · rw [h]
            · cases List.not_mem_nil _ hp4),
    h2.1, h2.2.1, h2.2.2⟩

/-! ## Quota Clock: order of period keys

The key strings are compared through `List.Lex` on their character lists,
digit by digit. -/

theorem digitChar_mono :
    ∀ a : Nat, a < 10 → ∀ b : Nat, b < 10 → a < b → digitChar a < digitChar b := by
  decide

theorem lex_append_left_same (xs : List Char) {as bs : List Char}
    (h : List.Lex (· < ·) as bs) :
    List.Lex (· < ·) (xs ++ as) (xs ++ bs) := by
  induction xs with
  | nil => exact h
  | cons x xs ih => exact List.Lex.cons ih

theorem pad2_lex {a b : Nat} (h : a < b) (hb : b ≤ 99) (r1 r2 : List Char) :
    List.Lex (· < ·) (pad2 a ++ r1) (pad2 b ++ r2) := by
  simp only [pad2, List.cons_append, List.nil_append]
  have hcase : a / 10 % 10 < b / 10 % 10 ∨
      (a / 10 % 10 = b / 10 % 10 ∧ a % 10 < b % 10) := by omega
  rcases hcase with h1 | ⟨h1, h2⟩
  · exact List.Lex.rel (digitChar_mono _ (by omega) _ (by omega) h1)
  · rw [h1]
    exact List.Lex.cons (List.Lex.rel (digitChar_mono _ (by omega) _ (by omega) h2))

theorem pad4_lex {a b : Nat} (h : a < b) (hb : b ≤ 9999) (r1 r2 : List Char) :
    List.Lex (· < ·) (pad4 a ++ r1) (pad4 b ++ r2) := by
  simp only [pad4, List.cons_append, List.nil_append]
  by_cases h1 : a / 1000 % 10 = b / 1000 % 10
  · rw [h1]
    refine List.Lex.cons ?_
    by_cases h2 : a / 100 % 10 = b / 100 % 10
    · rw [h2]
      refine List.Lex.cons ?_
      by_cases h3 : a / 10 % 10 = b / 10 % 10
      · rw [h3]
        refine List.Lex.cons ?_
        have h4 : a % 10 < b % 10 := by omega
        exact List.Lex.rel (digitChar_mono _ (by omega) _ (by omega) h4)
      · have h3lt : a / 10 % 10 < b / 10 % 10 := by omega
        exact List.Lex.rel (digitChar_mono _ (by omega) _ (by omega) h3lt)
    · have h2lt : a / 100 % 10 < b / 100 % 10 := by omega
      exact List.Lex.rel (digitChar_mono _ (by omega) _ (by omega) h2lt)
  · have h1lt : a / 1000 % 10 < b / 1000 % 10 := by omega
    exact List.Lex.rel (digitChar_mono _ (by omega) _ (by omega) h1lt)

theorem iso_lt_of_year {y m d y' m' d' : Nat} (h : y < y') (hy : y' ≤ 9999) :
    isoOfTriple (y, m, d) < isoOfTriple (y', m', d') := by
  have hlex : List.Lex (· < ·) (isoOfTriple (y, m, d)).toList
      (isoOfTriple (y', m', d')).toList :=
    pad4_lex h hy ('-' :: pad2 m ++ '-' :: pad2 d) ('-' :: pad2 m' ++ '-' :: pad2 d')
  rw [String.lt_iff_toList_lt]
  exact hlex

theorem iso_lt_of_month {y m d m' d' : Nat} (h : m < m') (hm : m' ≤ 99) :
    isoOfTriple (y, m, d) < isoOfTriple (y, m', d') := by
  have hlex : List.Lex (· < ·) (isoOfTriple (y, m, d)).toList
      (isoOfTriple (y, m', d')).toList :=
    lex_append_left_same (pad4 y)
      (List.Lex.cons (pad2_lex h hm ('-' :: pad2 d) ('-' :: pad2 d')))
  rw [String.lt_iff_toList_lt]
  exact hlex

theorem iso_lt_of_day {y m d d' : Nat} (h : d < d') (hd : d' ≤ 99) :
    isoOfTriple (y, m, d) < isoOfTriple (y, m, d') := by
  have h0 := pad2_lex h hd ([] : List Char) ([] : List Char)
  rw [List.append_nil, List.append_nil] at h0
  have hlex : List.Lex (· < ·) (isoOfTriple (y, m, d)).toList
      (isoOfTriple (y, m, d')).toList :=
    lex_append_left_same (pad4 y)
      (List.Lex.cons (lex_append_left_same (pad2 m) (List.Lex.cons h0)))
  rw [String.lt_iff_toList_lt]
  exact hlex

theorem daysInYear_ge (y : Nat) : 365 ≤ daysInYear y := by
  unfold daysInYear
  split <;> omega

theorem daysInYear_le (y : Nat) : daysInYear y ≤ 366 := by
  unfold daysInYear
  split <;> omega

theorem daysInYear_of_leap {y : Nat} (h : isLeapYear y = true) :
    daysInYear y = 366 := by
  unfold daysInYear
  rw [h]
  rfl

theorem daysInYear_of_not_leap {y : Nat} (h : isLeapYear y = false) :
    daysInYear y = 365 := by
  unfold daysInYear
  rw [h]
  rfl

theorem monthLengths_bounds (y : Nat) : ∀ x ∈ monthLengths y, 1 ≤ x ∧ x ≤ 31 := by
  intro x hx
  cases h : isLeapYear y <;> simp [monthLengths, h] at hx <;> omega

theorem monthLengths_sum (y : Nat) : (monthLengths y).sum = daysInYear y := by
  cases h : isLeapYear y <;> simp [monthLengths, daysInYear, h]

theorem monthDayAux_m_le : ∀ (L : List Nat) (m d : Nat), m ≤ (monthDayAux L m d).1 := by
  intro L
  induction L with
  | nil => intro m d; exact Nat.le_refl m
  | cons len rest ih =>
    intro m d
    simp only [monthDayAux]
    split
    · exact Nat.le_refl m
    · exact Nat.le_trans (Nat.le_succ m) (ih (m + 1) (d - len))

theorem monthDayAux_spec : ∀ (L : List Nat) (m d : Nat),
    (∀ x ∈ L, 1 ≤ x ∧ x ≤ 31) → 1 ≤ d → d ≤ L.sum →
    1 ≤ (monthDayAux L m d).2 ∧ (monthDayAux L m d).2 ≤ 31 ∧
    (monthDayAux L m d).1 + 1 ≤ m + L.length := by
  intro L
  induction L with
  | nil =>
    intro m d _ h1 h2
    simp at h2
    omega
  | cons len rest ih =>
    intro m d hall h1 h2
    have hhead := hall len (List.mem_cons_self ..)
    simp only [monthDayAux]
    split
    · refine ⟨h1, by omega, by simp⟩
    · rename_i hd
      have hrest : ∀ x ∈ rest, 1 ≤ x ∧ x ≤ 31 :=
        fun x hx => hall x (List.mem_cons_of_mem _ hx)
      rw [List.sum_cons] at h2
      obtain ⟨a1, a2, a3⟩ := ih (m + 1) (d - len) hrest (by omega) (by omega)
      refine ⟨a1, a2, ?_⟩
      simp only [List.length_cons]
      omega

theorem monthDayAux_mono : ∀ (L : List Nat) (m d e : Nat),
    1 ≤ d → d < e → e ≤ L.sum →
    (monthDayAux L m d).1 < (monthDayAux L m e).1 ∨
    ((monthDayAux L m d).1 = (monthDayAux L m e).1 ∧
      (monthDayAux L m d).2 < (monthDayAux L m e).2) := by
  intro L
  induction L with
  | nil =>
    intro m d e _ hde he
    simp at he
    omega
  | cons len rest ih =>
    intro m d e h1 hde he
    rw [List.sum_cons] at he
    simp only [monthDayAux]
    by_cases hd : d ≤ len
    · by_cases heL : e ≤ len
      · rw [if_pos hd, if_pos heL]
        right
        exact ⟨rfl, hde⟩
      · rw [if_pos hd, if_neg heL]
        left
        have hle := monthDayAux_m_le rest (m + 1) (e - len)
        omega
    · have heL : ¬ e ≤ len := by omega
      rw [if_neg hd, if_neg heL]
      exact ih (m + 1) (d - len) (e - len) (by omega) (by omega) (by omega)

theorem monthDayOfYearDay_one (y : Nat) : monthDayOfYearDay y 1 = (1, 1) := by
  simp [monthDayOfYearDay, monthLengths, monthDayAux]

theorem civilFromYearDay_in_range (y d : Nat) (h1 : 1 ≤ d) (h2 : d ≤ daysInYear y) :
    civilFromYearDay y d =
      (y, (monthDayOfYearDay y d).1, (monthDayOfYearDay y d).2) := by
  obtain ⟨e, rfl⟩ : ∃ e, d = e + 1 := ⟨d - 1, by omega⟩
  unfold civilFromYearDay
  simp only [civilAux]
  rw [if_neg (by omega)]

theorem civilAux_one (fuel y : Nat) (hf : 1 ≤ fuel) : civilAux fuel y 1 = (y, 1, 1) := by
  obtain ⟨e, rfl⟩ : ∃ e, fuel = e + 1 := ⟨fuel - 1, by omega⟩
  simp only [civilAux]
  rw [if_neg (by have := daysInYear_ge y; omega)]
  rw [monthDayOfYearDay_one]

theorem civilFromYearDay_overflow (y : Nat) :
    civilFromYearDay y (daysInYear y + 1) = (y + 1, 1, 1) := by
  unfold civilFromYearDay
  have hd : daysInYear y + 1 = (daysInYear y) + 1 := rfl
  simp only [civilAux]
  rw [if_pos (by omega)]
  have hsub : daysInYear y + 1 - daysInYear y = 1 := by omega
  rw [hsub]
  exact civilAux_one (daysInYear y) (y + 1) (by have := daysInYear_ge y; omega)

theorem dayOfYear_bounds {t : Instant} (hv : t.valid) :
    1 ≤ dayOfYear t ∧ dayOfYear t ≤ daysInYear t.year := by
  obtain ⟨hlo, hhi⟩ := hv
  have hms : msPerDay = 86400000 := rfl
  unfold dayOfYear
  rw [hms] at hlo hhi ⊢
  constructor
  · omega
  · omega

/-- Either the period-start day stays inside the instant's year, or the
instant sits on day 366 of a leap year (period number 183) and the
period-start day spills into the next year. -/
theorem dayArg_cases {t : Instant} (hv : t.valid) :
    (periodNumber t * COOLDOWN_DAYS + 1 ≤ daysInYear t.year) ∨
    (isLeapYear t.year = true ∧ dayOfYear t = 366 ∧ periodNumber t = 183 ∧
      periodNumber t * COOLDOWN_DAYS + 1 = daysInYear t.year + 1) := by
  obtain ⟨hb1, hb2⟩ := dayOfYear_bounds hv
  have hcd : COOLDOWN_DAYS = 2 := rfl
  have hpn : periodNumber t = dayOfYear t / 2 := by
    unfold periodNumber
    rw [hcd]
  cases hL : isLeapYear t.year
  · left
    rw [daysInYear_of_not_leap hL] at hb2 ⊢
    rw [hcd, hpn]
    omega
  · rw [daysInYear_of_leap hL] at hb2 ⊢
    rw [hcd, hpn]
    by_cases h366 : dayOfYear t = 366
    · right
      rw [hpn] at *
      exact ⟨rfl, h366, by omega, by omega⟩
    · left
      omega

theorem monthDayOfYearDay_bounds (y d : Nat) (h1 : 1 ≤ d) (h2 : d ≤ daysInYear y) :
    1 ≤ (monthDayOfYearDay y d).1 ∧ (monthDayOfYearDay y d).1 ≤ 12 ∧
    1 ≤ (monthDayOfYearDay y d).2 ∧ (monthDayOfYearDay y d).2 ≤ 31 := by
  have hs := monthDayAux_spec (monthLengths y) 1 d (monthLengths_bounds y) h1
    (by rw [monthLengths_sum]; exact h2)
  have hm := monthDayAux_m_le (monthLengths y) 1 d
  have hlen : (monthLengths y).length = 12 := by
    cases h : isLeapYear y <;> simp [monthLengths, h]
  rw [hlen] at hs
  refine ⟨hm, ?_, hs.1, hs.2.1⟩
  show (monthDayAux (monthLengths y) 1 d).1 ≤ 12
  omega

theorem monthDayOfYearDay_mono (y : Nat) {d e : Nat} (h1 : 1 ≤ d) (hde : d < e)
    (he : e ≤ daysInYear y) :
    (monthDayOfYearDay y d).1 < (monthDayOfYearDay y e).1 ∨
    ((monthDayOfYearDay y d).1 = (monthDayOfYearDay y e).1 ∧
      (monthDayOfYearDay y d).2 < (monthDayOfYearDay y e).2) :=
  monthDayAux_mono (monthLengths y) 1 d e h1 hde
    (by rw [monthLengths_sum]; exact he)

theorem periodStartTriple_in_range {t : Instant}
    (h : periodNumber t * COOLDOWN_DAYS + 1 ≤ daysInYear t.year) :
    periodStartTriple t =
      (t.year, (monthDayOfYearDay t.year (periodNumber t * COOLDOWN_DAYS + 1)).1,
       (monthDayOfYearDay t.year (periodNumber t * COOLDOWN_DAYS + 1)).2) := by
  unfold periodStartTriple
  exact civilFromYearDay_in_range _ _ (by omega) h

theorem periodStartTriple_overflow {t : Instant}
    (h : periodNumber t * COOLDOWN_DAYS + 1 = daysInYear t.year + 1) :
    periodStartTriple t = (t.year + 1, 1, 1) := by
  unfold periodStartTriple
  rw [h]
  exact civilFromYearDay_overflow t.year

theorem iso_month_day_lt (y : Nat) {d e : Nat} (h1 : 1 ≤ d) (hde : d < e)
    (he : e ≤ daysInYear y) :
    isoOfTriple (y, (monthDayOfYearDay y d).1, (monthDayOfYearDay y d).2) <
    isoOfTriple (y, (monthDayOfYearDay y e).1, (monthDayOfYearDay y e).2) := by
  obtain ⟨_, hm2, _, hd2⟩ := monthDayOfYearDay_bounds y e (by omega) he
  rcases monthDayOfYearDay_mono y h1 hde he with h | ⟨heq, h⟩
  · exact iso_lt_of_month h (by omega)
  · rw [heq]
    exact iso_lt_of_day h (by omega)

/-- C5 (amended): `getCooldownPeriodStart` is stable inside a window, and
across windows it is lexicographically non-decreasing; it increases
strictly except in one documented edge case, where the earlier instant
lies in the final (single-day) window number 183 of a leap year and the
later one in the first window of the following year — both render the key
of January 1 of that following year. -/
theorem getCooldownPeriodStart_window_monotone (t1 t2 : Instant)
    (h1 : t1.valid) (h2 : t2.valid) (hy : t2.year ≤ 9998) :
    (t1.year = t2.year → periodNumber t1 = periodNumber t2 →
      getCooldownPeriodStart t1 = getCooldownPeriodStart t2) ∧
    (windowLt (window t1) (window t2) →
      getCooldownPeriodStart t1 < getCooldownPeriodStart t2 ∨
      (getCooldownPeriodStart t1 = getCooldownPeriodStart t2 ∧
        isLeapYear t1.year = true ∧ periodNumber t1 = 183 ∧
        t2.year = t1.year + 1 ∧ periodNumber t2 = 0)) := by
  constructor
  · intro hyy hpp
    unfold getCooldownPeriodStart periodStartTriple
    rw [hyy, hpp]
  · intro hw
    have hw' : t1.year < t2.year ∨
        (t1.year = t2.year ∧ periodNumber t1 < periodNumber t2) := hw
    have hb1 := dayOfYear_bounds h1
    have hb2 := dayOfYear_bounds h2
    have hc1 := dayArg_cases h1
    have hc2 := dayArg_cases h2
    have hcd : COOLDOWN_DAYS = 2 := rfl
    have hpn1 : periodNumber t1 = dayOfYear t1 / 2 := by
      unfold periodNumber
      rw [hcd]
    have hpn2 : periodNumber t2 = dayOfYear t2 / 2 := by
      unfold periodNumber
      rw [hcd]
    have hdy1 := daysInYear_le t1.year
    have hdy2 := daysInYear_le t2.year
    have hdg1 := daysInYear_ge t1.year
    have hdg2 := daysInYear_ge t2.year
    unfold getCooldownPeriodStart
    rcases hw' with hyy | ⟨hyy, hpp⟩
    · -- earlier year
      have hy1 : t1.year < t2.year := hyy
      rcases hc1 with hin1 | ⟨hL1, h366a, hp183a, hov1⟩
      · -- period start stays in year t1.year < t2.year ≤ triple2's year
        rw [periodStartTriple_in_range hin1]
        rcases hc2 with hin2 | ⟨_, _, _, hov2⟩
        · rw [periodStartTriple_in_range hin2]
          exact Or.inl (iso_lt_of_year (by omega) (by omega))
        · rw [periodStartTriple_overflow hov2]
          exact Or.inl (iso_lt_of_year (by omega) (by omega))
      · -- period start of t1 spills into t1.year + 1
        rw [periodStartTriple_overflow hov1]
        rcases hc2 with hin2 | ⟨_, _, _, hov2⟩
        · by_cases hadj : t2.year = t1.year + 1
          · by_cases hp20 : periodNumber t2 = 0
            · right
              refine ⟨?_, hL1, hp183a, hadj, hp20⟩
              rw [periodStartTriple_in_range hin2, hp20]
              have harg : 0 * COOLDOWN_DAYS + 1 = 1 := by omega
              rw [harg, monthDayOfYearDay_one, ← hadj]
            · left
              have hp20d : ¬ dayOfYear t2 / 2 = 0 := by
                rw [← hpn2]
                exact hp20
              have hgt1 : 1 < periodNumber t2 * COOLDOWN_DAYS + 1 := by
                rw [hcd, hpn2]
                omega
              have hmono := monthDayOfYearDay_mono t2.year (by omega) hgt1 hin2
              rw [monthDayOfYearDay_one] at hmono
              have hmono' :
                  1 < (monthDayOfYearDay t2.year
                    (periodNumber t2 * COOLDOWN_DAYS + 1)).1 ∨
                  (1 = (monthDayOfYearDay t2.year
                      (periodNumber t2 * COOLDOWN_DAYS + 1)).1 ∧
                    1 < (monthDayOfYearDay t2.year
                      (periodNumber t2 * COOLDOWN_DAYS + 1)).2) := hmono
              obtain ⟨_, hm2, _, hd2⟩ := monthDayOfYearDay_bounds t2.year
                (periodNumber t2 * COOLDOWN_DAYS + 1) (by omega) hin2
              rw [periodStartTriple_in_range hin2, ← hadj]
              rcases hmono' with hm | ⟨hmeq, hd⟩
              · exact iso_lt_of_month hm (by omega)
              · rw [← hmeq]
                exact iso_lt_of_day hd (by omega)
          · left
            rw [periodStartTriple_in_range hin2]
            exact iso_lt_of_year (by omega) (by omega)
        · left
          rw [periodStartTriple_overflow hov2]
          exact iso_lt_of_year (by omega) (by omega)
    · -- same year, earlier period number
      have hpp2 : dayOfYear t1 / 2 < dayOfYear t2 / 2 := by
        rw [← hpn1, ← hpn2]
        exact hpp
      have hdays : daysInYear t1.year = daysInYear t2.year := by rw [hyy]
      have hA1 : periodNumber t1 * COOLDOWN_DAYS + 1 ≤ daysInYear t1.year := by
        rw [hcd, hpn1]
        omega
      have hlt : periodNumber t1 * COOLDOWN_DAYS + 1 <
          periodNumber t2 * COOLDOWN_DAYS + 1 := by
        rw [hcd, hpn1, hpn2]
        omega
      rw [periodStartTriple_in_range hA1]
      rcases hc2 with hin2 | ⟨_, _, _, hov2⟩
      · rw [periodStartTriple_in_range hin2, ← hyy]
        exact Or.inl (iso_month_day_lt t1.year (by omega) hlt
          (by rw [hyy]; exact hin2))
      · rw [periodStartTriple_overflow hov2]
        exact Or.inl (iso_lt_of_year (by omega) (by omega))

/-- Counterexample for C5 as stated: Dec 31 2024 lies in window (2024, 183)
and Jan 1 2025 in the strictly later window (2025, 0), yet both render the
period key `2025-01-01` — the key of the later window is not strictly
greater. -/
theorem getCooldownPeriodStart_not_strictly_increasing :
    (tDec31.valid ∧ tJan1.valid ∧ windowLt (window tDec31) (window tJan1)) ∧
    getCooldownPeriodStart tDec31 = getCooldownPeriodStart tJan1 ∧
    ¬ getCooldownPeriodStart tDec31 < getCooldownPeriodStart tJan1 := by
  refine ⟨by decide, by decide, ?_⟩
  have heq : getCooldownPeriodStart tDec31 = getCooldownPeriodStart tJan1 := by decide
  rw [heq]
  exact lt_irrefl _

/-- Witness for the amended C5: noon Jan 1 2025 (window 0) against noon
Jan 3 2025 (window 1). -/
theorem getCooldownPeriodStart_window_monotone_witness :
    windowLt (window now0) (window now3) ∧
    (getCooldownPeriodStart now0 < getCooldownPeriodStart now3 ∨
      (getCooldownPeriodStart now0 = getCooldownPeriodStart now3 ∧
        isLeapYear now0.year = true ∧ periodNumber now0 = 183 ∧
        now3.year = now0.year + 1 ∧ periodNumber now3 = 0)) :=
  ⟨by decide,
    (getCooldownPeriodStart_window_monotone now0 now3 (by decide) (by decide)
      (by decide)).2 (by decide)⟩

end Valtori
